import Mathlib

/-!
# tagger-ui : the filesystem monitor `tfmon`

Shallow embedding of `win/src/tfmon/tfmon.cpp`.

* A wide string pointer (`LPWSTR`) is an `Option String`; `none` is `NULL`.
* Every call that leaves the program (a message sent to a log control, `DosExec`,
  `MessageBox`, the methods of `FSChangeNotifier`) is recorded, in program order, in a
  trace of `Effect`s.  The state threaded through the functions is that trace.
* What the outside world answers is a parameter: the text returned by `DosExec`, the
  result of `FSChangeNotifier::Init` and `AddPath`, the values read from `WinEnv_*`.
* `wsprintf` with a literal format and `%s` arguments is the substitution of the
  arguments into the format, cut at the 1024 characters that `wsprintf` writes at most
  (`Win32.wsprintf`).  In `StartMonitoring`, whose buffer `outputBuff` has that size, the
  texts formatted are values of the system and are taken to fit.
* `wcscmp(a, b) == 0` on two non-NULL strings is equality of the strings; `wcscmp` on a
  NULL pointer has no defined result and is recorded as `Effect.fault`, after which the
  function does nothing more.
* `LocalAlloc` / `LocalFree` are not modelled.
-/

namespace Win32

/-- The number of characters `wsprintf` of user32 writes at most, whatever the size of
the buffer it is given. -/
def WSPRINTF_LIMIT : Nat := 1024

/-- The text written by `wsprintf(buffer, format, ...)`, `s` being the format with its
`%s` arguments substituted: `s` itself up to `WSPRINTF_LIMIT` characters, cut there when
it is longer. -/
def wsprintf (s : String) : String := String.mk (s.data.take WSPRINTF_LIMIT)

end Win32

namespace Tfmon

open Win32

/-- Wide string pointer; `none` is the NULL pointer. -/
abbrev LPWSTR := Option String

/-- Identifiers of the three log controls of the activity dialog (`tfmon.h`). -/
inductive LogId where
  | ID_LOG_FS
  | ID_LOG_APP
  | ID_LOG_TAGGER
  deriving DecidableEq, Repr

/-- Window messages used by `appendLog`. -/
inductive Msg where
  | LB_ADDSTRING
  | EM_REPLACESEL
  deriving DecidableEq, Repr

/-- One effective call of `appendLog`: the control, and the `DlgCtrl_SendMessage` calls
made for it, in order. -/
structure LogEntry where
  ctrl : LogId
  sent : List (Msg × String)
  deriving DecidableEq, Repr

/-- Calls leaving the program, as they appear in the trace. -/
inductive Effect where
  | log (e : LogEntry)
  | dosExec (command : String)
  | messageBox (text : String)
  | notifierInit
  | addPath (path : String)
  | addExclusion (path : LPWSTR)
  | bind
  | start
  | fault
  deriving DecidableEq, Repr

/-- The trace of effects performed so far. -/
abbrev World := List Effect

/-- Commands passed to `DosExec`, in call order. -/
def dosCalls (w : World) : List String :=
  w.filterMap fun e => match e with
    | .dosExec c => some c
    | _ => none

/-- Entries appended by `appendLog`, in call order. -/
def logEntries (w : World) : List LogEntry :=
  w.filterMap fun e => match e with
    | .log l => some l
    | _ => none

/-- Reply of the tag store when the queried file carries no tag. -/
def NoTags : String := "No tag currently applied on given file(s).\r\n"

/-- Source: `void appendLog(UINT type, LPCWSTR str, BOOL isCommand)`. -/
def appendLog (type : LogId) (str : LPWSTR) (isCommand : Bool) (w : World) : World :=
  match str with
  | none => w
  | some s =>
    match type with
    | .ID_LOG_FS => w ++ [.log ⟨type, [(.LB_ADDSTRING, s)]⟩]
    | .ID_LOG_APP => w ++ [.log ⟨type, [(.LB_ADDSTRING, s)]⟩]
    | .ID_LOG_TAGGER =>
      w ++ [.log ⟨type,
        (if isCommand then [(Msg.EM_REPLACESEL, "$>")] else []) ++
          [(.EM_REPLACESEL, s), (.EM_REPLACESEL, "\r\n")]⟩]

/-- What `DosExec` returns: a function of the number of `DosExec` calls made before and
of the command line.  `none` is a NULL result. -/
abbrev DosOracle := Nat → String → LPWSTR

/-- Source: `LPWSTR DosExec(LPWSTR command)` (declared in `doscommand.h`): the call is
recorded and the text handed back is the one the oracle gives for it. -/
def DosExec (dos : DosOracle) (command : String) (w : World) : LPWSTR × World :=
  (dos (dosCalls w).length command, w ++ [.dosExec command])

/-- Source: `void fileMove(HWND hWnd, WPARAM wParam, LPARAM lParam)`;
`tagger` is `Settings.taggerCommandLinePath`.  Each text of `buff` is the one written
by `wsprintf`. -/
def fileMove (tagger : String) (dos : DosOracle) (wParam lParam : LPWSTR) (w : World) :
    World :=
  match wParam, lParam with
  | some oldFileName, some newFileName =>
    if oldFileName = newFileName then w
    else
      let w := appendLog .ID_LOG_FS (some "File moved:") false w
      let buff := wsprintf ("    Src: " ++ oldFileName)
      let w := appendLog .ID_LOG_FS (some buff) false w
      let buff := wsprintf ("    Dst: " ++ newFileName)
      let w := appendLog .ID_LOG_FS (some buff) false w
      let w := appendLog .ID_LOG_FS (some "") false w
      let buff := wsprintf (tagger ++ " query \"" ++ oldFileName ++ "\"")
      let (output, w) := DosExec dos buff w
      let w := appendLog .ID_LOG_TAGGER (some buff) true w
      let w := appendLog .ID_LOG_TAGGER output false w
      match output with
      | none => w ++ [.fault]
      | some out =>
        if out ≠ NoTags then
          let buff := wsprintf (tagger ++ " --files rename \"" ++ oldFileName ++ "\" \"" ++
            newFileName ++ "\"")
          let (output, w) := DosExec dos buff w
          let w := appendLog .ID_LOG_TAGGER (some buff) true w
          let w := appendLog .ID_LOG_TAGGER output false w
          w
        else w
  | _, _ => w

/-- Source: `void fileRemove(HWND hWnd, WPARAM wParam, LPARAM lParam)`. -/
def fileRemove (tagger : String) (dos : DosOracle) (wParam _lParam : LPWSTR) (w : World) :
    World :=
  match wParam with
  | none => w
  | some oldFileName =>
    let w := appendLog .ID_LOG_FS (some "File deleted:") false w
    let buff := wsprintf ("    " ++ oldFileName)
    let w := appendLog .ID_LOG_FS (some buff) false w
    let w := appendLog .ID_LOG_FS (some "") false w
    let buff := wsprintf (tagger ++ " query \"" ++ oldFileName ++ "\"")
    let (output, w) := DosExec dos buff w
    let w := appendLog .ID_LOG_TAGGER (some buff) true w
    let w := appendLog .ID_LOG_TAGGER output false w
    match output with
    | none => w ++ [.fault]
    | some out =>
      if out ≠ NoTags then
        let buff := wsprintf (tagger ++ " --files delete \"" ++ oldFileName ++ "\"")
        let (output, w) := DosExec dos buff w
        let w := appendLog .ID_LOG_TAGGER (some buff) true w
        let w := appendLog .ID_LOG_TAGGER output false w
        w
      else w

/-- Source: `void fileRestore(HWND hWnd, WPARAM wParam, LPARAM lParam)`. -/
def fileRestore (tagger : String) (dos : DosOracle) (wParam _lParam : LPWSTR) (w : World) :
    World :=
  match wParam with
  | none => w
  | some oldFileName =>
    let w := appendLog .ID_LOG_FS (some "File restored:") false w
    let buff := wsprintf ("    " ++ oldFileName)
    let w := appendLog .ID_LOG_FS (some buff) false w
    let w := appendLog .ID_LOG_FS (some "") false w
    let buff := wsprintf (tagger ++ " query \"" ++ oldFileName ++ "\"")
    let (output, w) := DosExec dos buff w
    let w := appendLog .ID_LOG_TAGGER (some buff) true w
    let w := appendLog .ID_LOG_TAGGER output false w
    match output with
    | none => w ++ [.fault]
    | some out =>
      if out = NoTags then
        let buff := wsprintf (tagger ++ " --files recover \"" ++ oldFileName ++ "\"")
        let (output, w) := DosExec dos buff w
        let w := appendLog .ID_LOG_TAGGER (some buff) true w
        let w := appendLog .ID_LOG_TAGGER output false w
        w
      else w

/-- What `StartMonitoring` reads from outside the file: the settings, the `WinEnv_*`
values and the results of the `FSChangeNotifier` methods.  `AddPath i d` is the result
of the call made for the drive `d` at index `i` of `Settings.lpDrives`, and
`E_FILESYSMON_SUCCESS` the constant of `FSChangeNotifier.h` it is compared with.
`fixedDrives` and `remoteDrives` are the NULL-terminated arrays of `WinEnv_GetDrives`
(together at most the 26 slots of `Settings.lpDrives`); the structures returned by
`WinEnv_GetWindowsInfo`, `WinEnv_GetDriveInfo` and `WinEnv_GetCurrentUserInfo` are taken
to be there, `szRecycleBinPath d` being the recycle bin path of drive `d`. -/
structure Env where
  taggerCommandLinePath : String
  szVersion : String
  szName : String
  fixedDrives : List String
  remoteDrives : List String
  szRecycleBinPath : String → LPWSTR
  Init : Bool
  AddPath : Nat → String → Nat
  E_FILESYSMON_SUCCESS : Nat
  tempFolder : LPWSTR
  myTempFolder : LPWSTR
  szHomeDirectory : String

/-- Source: the two loops of `StartMonitoring` that copy the enumerated drives to
`Settings.lpDrives` and log each of them; the drives copied are returned with the
trace. -/
def logDrives : List String → World → List String × World
  | [], w => ([], w)
  | d :: ds, w =>
    let w := appendLog .ID_LOG_APP (some d) false w
    let (rest, w) := logDrives ds w
    (d :: rest, w)

/-- Source: the loop of `StartMonitoring` over `lpDriveInfos`, logging the recycle bin
of each drive. -/
def logRecycleBins (env : Env) : List String → World → World
  | [], w => w
  | d :: ds, w =>
    logRecycleBins env ds (appendLog .ID_LOG_APP (env.szRecycleBinPath d) false w)

/-- Source: the loop `// add drives to watch list` of `StartMonitoring`, from index `i`
on. -/
def addDrives (env : Env) : Nat → List String → World → World
  | _, [], w => w
  | i, d :: ds, w =>
    let w := w ++ [.addPath d]
    let w :=
      if env.AddPath i d ≠ env.E_FILESYSMON_SUCCESS then
        let outputBuff := "Error adding drive  " ++ d ++ " to monitoring list"
        appendLog .ID_LOG_APP (some outputBuff) false w
      else w
    addDrives env (i + 1) ds w

/-- Source: `BOOL StartMonitoring()`; the result is the returned `BOOL` and the
trace. -/
def StartMonitoring (env : Env) (w : World) : Bool × World :=
  let w := appendLog .ID_LOG_APP (some "Applicaiton initialization...") false w
  let outputBuff := "Windows version: " ++ env.szVersion ++ " (" ++ env.szName ++ ")"
  let w := appendLog .ID_LOG_APP (some outputBuff) false w
  let outputBuff := "tagger.exe command line: " ++ env.taggerCommandLinePath
  let w := appendLog .ID_LOG_APP (some outputBuff) false w
  let w := appendLog .ID_LOG_APP (some "Retrieved drives and recycle bins:") false w
  let (lpFixed, w) := logDrives env.fixedDrives w
  let (lpRemote, w) := logDrives env.remoteDrives w
  let lpDrives := lpFixed ++ lpRemote
  let w := logRecycleBins env lpDrives w
  let w := appendLog .ID_LOG_APP (some "Starting monitoring...") false w
  let w := w ++ [.notifierInit]
  if ¬ env.Init then
    (false, w ++ [.messageBox "Initialization Error"])
  else
    let w := addDrives env 0 lpDrives w
    let w := w ++ [.addExclusion env.tempFolder]
    let w := w ++ [.addExclusion env.myTempFolder]
    let outputBuff := env.szHomeDirectory ++ "\\.tagger"
    let w := w ++ [.addExclusion (some outputBuff)]
    let w := w ++ [.bind]
    let w := w ++ [.start]
    (true, w)

/-- Paths passed to `FSChangeNotifier::AddPath`, in call order. -/
def addPathCalls (w : World) : List String :=
  w.filterMap fun e => match e with
    | .addPath d => some d
    | _ => none

/-- Texts shown with `MessageBox`, in call order. -/
def messageBoxes (w : World) : List String :=
  w.filterMap fun e => match e with
    | .messageBox t => some t
    | _ => none

/-- Paths passed to `FSChangeNotifier::AddExclusion`, in call order. -/
def exclusionCalls (w : World) : List LPWSTR :=
  w.filterMap fun e => match e with
    | .addExclusion p => some p
    | _ => none

/-- A path of 523 characters on the drive `C:`. -/
def longSrc : String := "C:\\" ++ String.mk (List.replicate 520 'a')

/-- Another path of 523 characters on the drive `C:`. -/
def longDst : String := "C:\\" ++ String.mk (List.replicate 520 'b')

/-- A path of 1000 characters on the drive `C:`. -/
def longPath : String := "C:\\" ++ String.mk (List.replicate 997 'a')

/-- A machine on which no drive is enumerated; the notifier initialises. -/
def envNoDrive : Env :=
  Env.mk "C:\\tagger\\tagger.exe" "6.1" "Windows 7" [] [] (fun _ => none) true
    (fun _ _ => 1) 0 (some "C:\\Windows\\Temp") (some "C:\\Users\\u\\Temp") "C:\\Users\\u"

/-- A machine with the fixed drive `C:\` and the remote drive `Z:\`; the notifier
initialises and `AddPath` fails (result 1, success being 0) for every drive. -/
def envFailingDrives : Env :=
  Env.mk "C:\\tagger\\tagger.exe" "6.1" "Windows 7" ["C:\\"] ["Z:\\"]
    (fun d => some (d ++ "$Recycle.Bin")) true
    (fun _ _ => 1) 0 (some "C:\\Windows\\Temp") (some "C:\\Users\\u\\Temp") "C:\\Users\\u"

end Tfmon

/-! # The event correlator (`FSChangeNotifier`)

`FSChangeNotifier` is used by `tfmon.cpp` through its header only; the correlator is
modelled from the specification (data model, and the state machine of the
EventCorrelator). -/

namespace Correlator

/-- Kinds of raw filesystem notification. -/
inductive RawKind where
  | Created
  | Deleted
  | RenamedOld
  | RenamedNew
  | Modified
  deriving DecidableEq, Repr

/-- Modelled from the spec: the `RawEvent` record
`{ volume, kind, path, sequenceNumber, timestamp }` produced by the ChangeWatcher. -/
structure RawEvent where
  volume : String
  kind : RawKind
  path : String
  sequenceNumber : Nat
  timestamp : Nat
  deriving DecidableEq, Repr

/-- Modelled from the spec: the tagged union
`Moved{from,to} | Removed{path} | Restored{path}`; a `Moved` event is what is posted
to `fileMove` with `wParam = from` and `lParam = to`. -/
inductive SemanticEvent where
  | Moved (src dst : String)
  | Removed (path : String)
  | Restored (path : String)
  deriving DecidableEq, Repr

/-- Modelled from the spec: the state of the correlator, one `PendingRename` slot per
volume; `none` is `Idle`, `some p` is `AwaitingRenamedNew(p)`. -/
abbrev State := String → Option String

/-- The state in which every volume is `Idle`. -/
def idle : State := fun _ => none

/-- The state `σ` with the slot of volume `v` set to `x`. -/
def State.set (σ : State) (v : String) (x : Option String) : State :=
  fun u => if u = v then x else σ u

/-- Modelled from the spec: one step of the EventCorrelator state machine (the missing
`FSChangeNotifier`), for the volume of the event.  `excluded` is the membership test of
the ExclusionSet and `fromIdle` what the `Idle` state emits for an event that is not a
`RenamedOld` (the `Deleted` and `Created` rules), both kept as parameters.

* An event whose path is excluded is dropped (the safety-net re-check; by the data
  model such a path never becomes a raw event).
* `RenamedOld(p)`: the state becomes `AwaitingRenamedNew(p)`; a rename that was pending
  is an orphan and emits nothing.
* `AwaitingRenamedNew(p)`, `RenamedNew(q)`: emit `Moved{from:p, to:q}` and return to
  `Idle`.  The pair is posted whatever `p` and `q` are: the tie-break on identical
  paths is taken by the receiver, `fileMove` (`tfmon.cpp`, line 355).
* `AwaitingRenamedNew(p)`, any other event: nothing is emitted for `p`, and the event
  is processed from `Idle`.
* `Idle`, `RenamedNew(q)`: there is no rename to pair it with; nothing is emitted. -/
def step (excluded : String → Bool) (fromIdle : RawEvent → List SemanticEvent)
    (σ : State) (e : RawEvent) : State × List SemanticEvent :=
  if excluded e.path then (σ, [])
  else
    match e.kind, σ e.volume with
    | .RenamedOld, _ => (σ.set e.volume (some e.path), [])
    | .RenamedNew, some p => (σ.set e.volume none, [.Moved p e.path])
    | .RenamedNew, none => (σ, [])
    | _, some _ => (σ.set e.volume none, fromIdle e)
    | _, none => (σ, fromIdle e)

/-- Modelled from the spec: the correlator consuming a sequence of raw events in order;
the result is the final state and the semantic events emitted, in order. -/
def run (excluded : String → Bool) (fromIdle : RawEvent → List SemanticEvent) :
    State → List RawEvent → State × List SemanticEvent
  | σ, [] => (σ, [])
  | σ, e :: es =>
    let (σ1, out1) := step excluded fromIdle σ e
    let (σ2, out2) := run excluded fromIdle σ1 es
    (σ2, out1 ++ out2)

/-- Modelled from the spec: the delivery of a semantic event to the handler that
`WinMain` binds to its message (`tfmon.cpp`, lines 124 to 126): `WM_FSNOTIFY_MOVED` to
`fileMove`, `WM_FSNOTIFY_REMOVED` to `fileRemove`, `WM_FSNOTIFY_RESTORED` to
`fileRestore`.  The path of the event travels in `wParam` and the new path of a move in
`lParam`, which is where the handlers read them. -/
def deliver (tagger : String) (dos : Tfmon.DosOracle) (w : Tfmon.World) :
    SemanticEvent → Tfmon.World
  | .Moved src dst => Tfmon.fileMove tagger dos (some src) (some dst) w
  | .Removed path => Tfmon.fileRemove tagger dos (some path) none w
  | .Restored path => Tfmon.fileRestore tagger dos (some path) none w

end Correlator

/-! # The tagging dialog `tftag`

Shallow embedding of `win/src/tftag/tftag.cpp`.

* A list box is the list of its items in index order, each with its text and its
  selection flag; the list boxes are taken without the `LBS_SORT` style, so that
  `LB_ADDSTRING` appends.  The list-box messages follow their Win32 documentation.
* The state of the dialog is the content of its controls, the command lines passed to
  `DosExec` and the texts sent to the log control.
* As for `tfmon`, what `DosExec` returns is a parameter, and `wsprintf` with a literal
  format is the substitution of its arguments, cut at the 1024 characters `wsprintf`
  writes at most (`Win32.wsprintf`), also where the buffer has been allocated for the
  whole text.
-/

namespace Tftag

open Win32

/-- Wide string pointer; `none` is the NULL pointer. -/
abbrev LPWSTR := Option String

/-- A list box: its items in index order, with text and selection flag. -/
abbrev ListBox := List (String × Bool)

/-- Texts of the items of a list box, in index order. -/
def texts (lb : ListBox) : List String := lb.map Prod.fst

/-- Texts of the selected items of a list box, in index order. -/
def selectedTexts (lb : ListBox) : List String := (lb.filter Prod.snd).map Prod.fst

/-- `LB_ADDSTRING`: the string is added at the end; the result is the new list box and
the index of the new item. -/
def LB_ADDSTRING (lb : ListBox) (s : String) : ListBox × Nat :=
  (lb ++ [(s, false)], lb.length)

/-- `LB_DELETESTRING`: the item at index `i` is removed (nothing happens when there is no
such item). -/
def LB_DELETESTRING (lb : ListBox) (i : Nat) : ListBox := lb.eraseIdx i

/-- `LB_GETCOUNT`. -/
def LB_GETCOUNT (lb : ListBox) : Nat := lb.length

/-- `LB_GETTEXT` into a zero-initialised buffer: the text of item `i`, and the empty
string when there is no such item. -/
def LB_GETTEXT (lb : ListBox) (i : Nat) : String :=
  match lb.get? i with
  | some (s, _) => s
  | none => ""

/-- `LB_GETSEL`: positive for a selected item, zero for an unselected one, `LB_ERR`
when there is no such item. -/
def LB_GETSEL (lb : ListBox) (i : Nat) : Int :=
  match lb.get? i with
  | some (_, true) => 1
  | some (_, false) => 0
  | none => -1

/-- `LB_GETSELCOUNT` of a multiple-selection list box. -/
def LB_GETSELCOUNT (lb : ListBox) : Nat := (lb.filter Prod.snd).length

/-- Indexes of the selected items of `lb`, the first item having index `i`. -/
def selItemsFrom : Nat → ListBox → List Nat
  | _, [] => []
  | i, (_, sel) :: rest =>
    if sel then i :: selItemsFrom (i + 1) rest else selItemsFrom (i + 1) rest

/-- `LB_GETSELITEMS`: the indexes of the selected items, in increasing order, at most
`max` of them. -/
def LB_GETSELITEMS (lb : ListBox) (max : Nat) : List Nat := (selItemsFrom 0 lb).take max

/-- `LB_SELITEMRANGE` with `wParam = TRUE`: the items of index `first` to `last` are
selected. -/
def LB_SELITEMRANGE (lb : ListBox) (first last : Nat) : ListBox :=
  lb.enum.map fun it => (it.2.1, it.2.2 || (decide (first ≤ it.1) && decide (it.1 ≤ last)))

/-- The test of `LB_FINDSTRING`: the item text begins with the searched string, the
case of the (ASCII) letters being ignored. -/
def beginsWith (item s : String) : Bool :=
  (s.data.map Char.toLower).isPrefixOf (item.data.map Char.toLower)

/-- `LB_FINDSTRING`: the index of the first item whose text begins with `s`, the search
starting after item `start` and wrapping around to it; `none` is `LB_ERR`. -/
def LB_FINDSTRING (lb : ListBox) (start : Nat) (s : String) : Option Nat :=
  ((List.range lb.length).rotate (start + 1)).find? fun i => beginsWith (LB_GETTEXT lb i) s

/-- Reply of the tag store when the queried file carries no tag. -/
def NoTags : String := "No tag currently applied on given file(s).\r\n"

/-- `wcsstr(str, pattern)`: the offset of the first occurrence of `pattern` in `str`,
`none` (NULL) when there is none. -/
def wcsstr : List Char → List Char → Option Nat
  | [], pattern => if pattern.isPrefixOf [] then some 0 else none
  | c :: str, pattern =>
    if pattern.isPrefixOf (c :: str) then some 0 else (wcsstr str pattern).map (· + 1)

/-- One call of `wcstok` on the text `s` that remains, with the delimiters `delim`:
leading delimiters are skipped; `none` (NULL) when nothing is left, otherwise the
token, which runs up to the next delimiter, and the text after that delimiter. -/
def wcstok (delim : List Char) (s : List Char) : Option (List Char × List Char) :=
  match s.dropWhile delim.contains with
  | [] => none
  | c :: cs =>
    some ((c :: cs).takeWhile (fun x => !delim.contains x),
      ((c :: cs).dropWhile (fun x => !delim.contains x)).drop 1)

/-- Source: the loop
`for(line = wcstok(output, L"\n"); line; line = wcstok(NULL, L"\n"))` with its first
statement `line[wcslen(line)-1] = '\0'`: the lines handed to the loop body, in order.
Each turn takes one unit of `fuel`. -/
def wcstokLines : Nat → List Char → List (List Char)
  | 0, _ => []
  | fuel + 1, s =>
    match wcstok ['\n'] s with
    | none => []
    | some (line, rest) => line.dropLast :: wcstokLines fuel rest

/-- The lines of `output` as the loop sees them; a token has at least one character,
so the length of `output` is enough fuel. -/
def parseLines (output : String) : List String :=
  (wcstokLines output.length output.data).map String.mk

/-- Source: the guarded loop of `initDialog` (lines 283-292) and `updateFilesList`
(lines 487-492): the tags extracted from the reply to a query. -/
def extractTags (output : String) : List String :=
  if output ≠ NoTags then parseLines output else []

/-- State of the dialog: the five list boxes, the text of the edit control
`ID_TAGNAME` and of the static control `ID_FILENAME`, the command lines passed to
`DosExec`, the texts sent to the log control `ID_LOG`, and whether a NULL pointer has
been dereferenced. -/
structure Dialog where
  ID_LIST_TAGS_MATCH : ListBox
  ID_LIST_TAGS_ALL : ListBox
  ID_LIST_TAGS_SET : ListBox
  ID_LIST_TAGS_TMP : ListBox
  ID_LIST_FILES : ListBox
  ID_TAGNAME : String
  ID_FILENAME : String
  calls : List String
  log : List LPWSTR
  fault : Bool
  deriving DecidableEq, Repr

/-- What `DosExec` returns: a function of the number of `DosExec` calls made before and
of the command line. -/
abbrev DosOracle := Nat → String → LPWSTR

/-- Source: `LPWSTR DosExec(LPWSTR command)`. -/
def DosExec (dos : DosOracle) (command : String) (d : Dialog) : LPWSTR × Dialog :=
  (dos d.calls.length command, { d with calls := d.calls ++ [command] })

/-- Source: `void addLog(LPWSTR str, BOOL isCommand)`. -/
def addLog (str : LPWSTR) (isCommand : Bool) (d : Dialog) : Dialog :=
  { d with log := d.log ++ (if isCommand then [some "$>"] else []) ++ [str, some "\r\n"] }

/-- Source: the inner loop of `removeTags` over the files list: one
`<tagger> tag -"tagname" "filename"` command per file, in index order. -/
def removeTagFromFiles (tagger : String) (dos : DosOracle) (tagname : String) :
    List String → Dialog → Dialog
  | [], d => d
  | filename :: files, d =>
    let command := wsprintf (tagger ++ " tag -\"" ++ tagname ++ "\" \"" ++ filename ++ "\"")
    let (output, d) := DosExec dos command d
    let d := addLog (some command) true d
    let d := addLog output false d
    removeTagFromFiles tagger dos tagname files d

/-- Source: the first pass of `removeTags`, over the selected indexes. -/
def removeTagsFirstPass (tagger : String) (dos : DosOracle) : List Nat → Dialog → Dialog
  | [], d => d
  | i :: indexes, d =>
    let tagname := LB_GETTEXT d.ID_LIST_TAGS_SET i
    let d := { d with ID_LIST_TAGS_MATCH := (LB_ADDSTRING d.ID_LIST_TAGS_MATCH tagname).1 }
    let d := { d with ID_LIST_TAGS_ALL := (LB_ADDSTRING d.ID_LIST_TAGS_ALL tagname).1 }
    let d := removeTagFromFiles tagger dos tagname (texts d.ID_LIST_FILES) d
    removeTagsFirstPass tagger dos indexes d

/-- Source: the second pass of `removeTags`, `for(int i = count-1; i >= 0; --i)`, with
`n` indexes left to visit. -/
def removeTagsSecondPass : Nat → Dialog → Dialog
  | 0, d => d
  | i + 1, d =>
    let d :=
      if LB_GETSEL d.ID_LIST_TAGS_SET i ≠ 0 then
        { d with ID_LIST_TAGS_SET := LB_DELETESTRING d.ID_LIST_TAGS_SET i }
      else d
    removeTagsSecondPass i d

/-- Source: `void removeTags(HWND hWnd, WPARAM, LPARAM)`. -/
def removeTags (tagger : String) (dos : DosOracle) (d : Dialog) : Dialog :=
  let sel_count := LB_GETSELCOUNT d.ID_LIST_TAGS_SET
  let indexes := LB_GETSELITEMS d.ID_LIST_TAGS_SET sel_count
  let d := removeTagsFirstPass tagger dos indexes d
  let count := LB_GETCOUNT d.ID_LIST_TAGS_SET
  removeTagsSecondPass count d

/-- Source: the inner loop of `addTags` over the files list: one
`<tagger> tag +"tagname" "filename"` command per file, in index order. -/
def addTagToFiles (tagger : String) (dos : DosOracle) (tagname : String) :
    List String → Dialog → Dialog
  | [], d => d
  | filename :: files, d =>
    let command := wsprintf (tagger ++ " tag +\"" ++ tagname ++ "\" \"" ++ filename ++ "\"")
    let (output, d) := DosExec dos command d
    let d := addLog (some command) true d
    let d := addLog output false d
    addTagToFiles tagger dos tagname files d

/-- Source: the first pass of `addTags`, over the selected indexes. -/
def addTagsFirstPass (tagger : String) (dos : DosOracle) : List Nat → Dialog → Dialog
  | [], d => d
  | i :: indexes, d =>
    let tagname := LB_GETTEXT d.ID_LIST_TAGS_MATCH i
    let d := { d with ID_LIST_TAGS_SET := (LB_ADDSTRING d.ID_LIST_TAGS_SET tagname).1 }
    let d := addTagToFiles tagger dos tagname (texts d.ID_LIST_FILES) d
    addTagsFirstPass tagger dos indexes d

/-- Source: the second pass of `addTags`, `for(int i = count-1; i >= 0; --i)`, with `n`
indexes left to visit: a selected item of `ID_LIST_TAGS_MATCH` is deleted, and so is
the item of the same index of `ID_LIST_TAGS_ALL`. -/
def addTagsSecondPass : Nat → Dialog → Dialog
  | 0, d => d
  | i + 1, d =>
    let d :=
      if LB_GETSEL d.ID_LIST_TAGS_MATCH i ≠ 0 then
        let d := { d with ID_LIST_TAGS_MATCH := LB_DELETESTRING d.ID_LIST_TAGS_MATCH i }
        { d with ID_LIST_TAGS_ALL := LB_DELETESTRING d.ID_LIST_TAGS_ALL i }
      else d
    addTagsSecondPass i d

/-- Source: the branch `// at least one tag is selected` of `addTags`. -/
def addTagsSelected (tagger : String) (dos : DosOracle) (sel_count : Nat) (d : Dialog) :
    Dialog :=
  let indexes := LB_GETSELITEMS d.ID_LIST_TAGS_MATCH sel_count
  let d := addTagsFirstPass tagger dos indexes d
  let count := LB_GETCOUNT d.ID_LIST_TAGS_MATCH
  addTagsSecondPass count d

/-- Source: `void addTags(HWND hWnd, WPARAM wParam, LPARAM lParam)`; `depth` bounds the
nesting of the recursive call made after a new tag has been created. -/
def addTagsAux (tagger : String) (dos : DosOracle) : Nat → Dialog → Dialog
  | 0, d => d
  | depth + 1, d =>
    let sel_count := LB_GETSELCOUNT d.ID_LIST_TAGS_MATCH
    if sel_count = 0 then
      let len := d.ID_TAGNAME.length
      if len = 0 then d
      else
        let count := LB_GETCOUNT d.ID_LIST_TAGS_MATCH
        if count = 0 then
          let tagname := d.ID_TAGNAME
          if LB_FINDSTRING d.ID_LIST_TAGS_SET 0 tagname = none then
            let command := wsprintf (tagger ++ " create \"" ++ tagname ++ "\"")
            let (_, d) := DosExec dos command d
            let d := { d with ID_LIST_TAGS_ALL := (LB_ADDSTRING d.ID_LIST_TAGS_ALL tagname).1 }
            let (lb, index) := LB_ADDSTRING d.ID_LIST_TAGS_MATCH tagname
            let d := { d with ID_LIST_TAGS_MATCH := LB_SELITEMRANGE lb index index }
            addTagsAux tagger dos depth d
          else d
        else d
    else addTagsSelected tagger dos sel_count d

/-- Source: `addTags`; the recursive call finds the item it has just selected, so that
two levels are all that is ever entered. -/
def addTags (tagger : String) (dos : DosOracle) (d : Dialog) : Dialog :=
  addTagsAux tagger dos 2 d

/-- Source: the loop of `updateTagName` over the items of `ID_LIST_TAGS_ALL`, building
the new content of `ID_LIST_TAGS_MATCH`. -/
def updateTagNameLoop (pattern : String) : List String → ListBox → ListBox
  | [], lb => lb
  | str :: rest, lb =>
    let lb :=
      if wcsstr str.data pattern.data = some 0 ∨ pattern.length = 0 then
        let (lb, index) := LB_ADDSTRING lb str
        if str = pattern then LB_SELITEMRANGE lb index index else lb
      else lb
    updateTagNameLoop pattern rest lb

/-- Source: `void updateTagName(HWND hWnd, WPARAM, LPARAM)`. -/
def updateTagName (d : Dialog) : Dialog :=
  let pattern := d.ID_TAGNAME
  { d with ID_LIST_TAGS_MATCH := updateTagNameLoop pattern (texts d.ID_LIST_TAGS_ALL) [] }

/-- Source: the loop `// add kept tags` of `updateFilesList`,
`for(int i = count-1; i >= 0; --i)`, with `n` indexes left to visit. -/
def keepCommonTags : Nat → Dialog → Dialog
  | 0, d => d
  | i + 1, d =>
    let str := LB_GETTEXT d.ID_LIST_TAGS_SET i
    let index := LB_FINDSTRING d.ID_LIST_TAGS_TMP 0 str
    let d :=
      if index = none then
        let d := { d with ID_LIST_TAGS_SET := LB_DELETESTRING d.ID_LIST_TAGS_SET i }
        let d := { d with ID_LIST_TAGS_MATCH := (LB_ADDSTRING d.ID_LIST_TAGS_MATCH str).1 }
        { d with ID_LIST_TAGS_ALL := (LB_ADDSTRING d.ID_LIST_TAGS_ALL str).1 }
      else d
    keepCommonTags i d

/-- Source: `void updateFilesList(HWND hWnd, WPARAM, LPARAM)`; `lpMapAddress` is the
text found in the shared memory. -/
def updateFilesList (tagger : String) (dos : DosOracle) (lpMapAddress : String)
    (d : Dialog) : Dialog :=
  if LB_FINDSTRING d.ID_LIST_FILES 0 lpMapAddress ≠ none then d
  else
    let d := { d with ID_LIST_FILES := (LB_ADDSTRING d.ID_LIST_FILES lpMapAddress).1 }
    let filesCount := LB_GETCOUNT d.ID_LIST_FILES
    let str := wsprintf (toString filesCount ++ " selected files")
    let d := { d with ID_FILENAME := str }
    let d := { d with ID_LIST_TAGS_TMP := [] }
    let command := wsprintf (tagger ++ " query \"" ++ lpMapAddress ++ "\"")
    let (output, d) := DosExec dos command d
    let d := addLog (some command) true d
    let d := addLog output false d
    match output with
    | none => { d with fault := true }
    | some out =>
      let tmp :=
        (extractTags out).foldl (fun lb line => (LB_ADDSTRING lb line).1) d.ID_LIST_TAGS_TMP
      let d := { d with ID_LIST_TAGS_TMP := tmp }
      let count := LB_GETCOUNT d.ID_LIST_TAGS_SET
      keepCommonTags count d

/-- The text that `wsprintf(dst, fmt)`, called with a format and no further argument,
has to write: ordinary characters are copied and `%%` gives one percent sign; `none`
when the format holds any other use of `%`, whose output depends on arguments that were
not passed. -/
def wsprintfFormatOnly : List Char → Option (List Char)
  | [] => some []
  | c :: rest =>
    if c = '%' then
      match rest with
      | c2 :: rest2 =>
        if c2 = '%' then (wsprintfFormatOnly rest2).map ('%' :: ·) else none
      | [] => none
    else (wsprintfFormatOnly rest).map (c :: ·)

/-- What a second instance has done to the shared memory. -/
inductive Written where
  | nothing
  | text (s : String)
  | undefined
  deriving DecidableEq, Repr

/-- Source: the branch `GetLastError() == ERROR_ALREADY_EXISTS` of `WinMain` (lines
96-110): what the second instance writes to the shared memory, and whether it
broadcasts `WM_FLUPDATE`.  `argv` is the result of `CommandLineToArgvW`. -/
def WinMainSecondInstance (argv : List String) : Written × Bool :=
  if argv.length ≥ 2 then
    match wsprintfFormatOnly (argv.getD 1 "").data with
    | some out => (.text (wsprintf (String.mk out)), true)
    | none => (.undefined, true)
  else (.nothing, false)

/-- The line format of the tag store: each tag followed by `"\r\n"`, concatenated. -/
def tagLines (tags : List String) : String :=
  String.join (tags.map fun t => t ++ "\r\n")

/-- A dialog with empty controls, nothing called and nothing logged. -/
def emptyDialog : Dialog :=
  Dialog.mk [] [] [] [] [] "" "" [] [] false

/-- A dialog on the file `C:\a.txt`: the tags `alpha` and `beta` exist, the pattern `b`
has been typed (so that `updateTagName` has run) and the user has selected the one
item then shown in `ID_LIST_TAGS_MATCH`. -/
def dialogFilteredSelection : Dialog :=
  let d := updateTagName
    { emptyDialog with
      ID_LIST_TAGS_ALL := [("alpha", false), ("beta", false)]
      ID_LIST_FILES := [("C:\\a.txt", false)]
      ID_TAGNAME := "b" }
  { d with ID_LIST_TAGS_MATCH := LB_SELITEMRANGE d.ID_LIST_TAGS_MATCH 0 0 }

/-- A dialog on the file `C:\a.txt`, on which the tag `red` is set. -/
def dialogRedSet : Dialog :=
  { emptyDialog with
    ID_LIST_TAGS_SET := [("red", false)]
    ID_LIST_FILES := [("C:\\a.txt", false)] }

/-- A dialog whose files list holds `C:\a.txt.bak` only. -/
def dialogBackupFile : Dialog :=
  { emptyDialog with ID_LIST_FILES := [("C:\\a.txt.bak", false)] }

/-- A file name of 1003 characters. -/
def longFile : String := "C:\\" ++ String.mk (List.replicate 1000 'a')

/-- A dialog on the file `longFile`, with the tag `red` set and selected there, and the
tag `green` available and selected. -/
def dialogLongFile : Dialog :=
  { emptyDialog with
    ID_LIST_TAGS_MATCH := [("green", true)]
    ID_LIST_TAGS_ALL := [("green", false)]
    ID_LIST_TAGS_SET := [("red", true)]
    ID_LIST_FILES := [(longFile, false)] }

end Tftag

namespace Win32

/-! ## Facts on `wsprintf` -/

/-- A text of at most `WSPRINTF_LIMIT` characters is written whole. -/
theorem wsprintf_of_fits (s : String) (h : s.length ≤ WSPRINTF_LIMIT) : wsprintf s = s := by
  have h2 : s.data.length ≤ WSPRINTF_LIMIT := h
  simp only [wsprintf, List.take_of_length_le h2]

/-- The text written has the length of the text to write, or the limit if that is
less. -/
theorem wsprintf_length (s : String) :
    (wsprintf s).length = min WSPRINTF_LIMIT s.length := by
  simp only [wsprintf, String.length, List.length_take]

/-- A text of more than `WSPRINTF_LIMIT` characters is not written whole. -/
theorem wsprintf_ne_of_long (s : String) (h : WSPRINTF_LIMIT < s.length) :
    wsprintf s ≠ s := by
  intro he
  have hl := wsprintf_length s
  rw [he] at hl
  omega

/-- A query command line and a `--files` command line of the same tagger differ as
written by `wsprintf`, when the tagger path leaves room for two characters. -/
theorem wsprintf_query_ne_files (t x y : String) (ht : t.length + 2 ≤ WSPRINTF_LIMIT) :
    wsprintf (t ++ " query \"" ++ x) ≠ wsprintf (t ++ " --files " ++ y) := by
  intro h
  have h2 := congrArg String.data h
  have htd : t.data.length = t.length := rfl
  have htl : t.data.length ≤ WSPRINTF_LIMIT := by omega
  obtain ⟨k, hk⟩ : ∃ k, WSPRINTF_LIMIT - t.data.length = k + 2 :=
    ⟨WSPRINTF_LIMIT - t.data.length - 2, by omega⟩
  simp only [wsprintf, String.data_append, List.append_assoc,
    List.take_append_eq_append_take, List.take_of_length_le htl, hk] at h2
  have h3 := List.append_cancel_left h2
  simp at h3

end Win32

namespace Tfmon

open Win32

/-! ## Auxiliary facts -/

/-- Appending a log entry does not change the list of `DosExec` calls. -/
theorem dosCalls_appendLog (type : LogId) (str : LPWSTR) (b : Bool) (w : World) :
    dosCalls (appendLog type str b w) = dosCalls w := by
  cases str with
  | none => rfl
  | some s => cases type <;> simp [appendLog, dosCalls]

/-- A `DosExec` call adds its command at the end of the list of calls. -/
theorem dosCalls_DosExec (dos : DosOracle) (c : String) (w : World) :
    dosCalls (DosExec dos c w).2 = dosCalls w ++ [c] := by
  simp [DosExec, dosCalls]

/-- The text handed back by `DosExec` is the oracle's answer for this call. -/
theorem DosExec_fst (dos : DosOracle) (c : String) (w : World) :
    (DosExec dos c w).1 = dos (dosCalls w).length c := rfl

/-- A fault is not a `DosExec` call. -/
theorem dosCalls_fault (w : World) : dosCalls (w ++ [Effect.fault]) = dosCalls w := by
  simp [dosCalls]

/-- Calls of `fileMove` on two distinct non-NULL paths, in closed form. -/
theorem dosCalls_fileMove (tagger : String) (dos : DosOracle) (src dst : String)
    (w : World) (hne : src ≠ dst) :
    dosCalls (fileMove tagger dos (some src) (some dst) w) =
      dosCalls w ++ wsprintf (tagger ++ " query \"" ++ src ++ "\"") ::
        (match dos (dosCalls w).length (wsprintf (tagger ++ " query \"" ++ src ++ "\"")) with
          | some out =>
            if out ≠ NoTags then
              [wsprintf (tagger ++ " --files rename \"" ++ src ++ "\" \"" ++ dst ++ "\"")]
            else []
          | none => []) := by
  cases hq : dos (dosCalls w).length (wsprintf (tagger ++ " query \"" ++ src ++ "\"")) with
  | none =>
    simp [fileMove, hne, dosCalls_appendLog, dosCalls_DosExec, DosExec_fst, hq,
      dosCalls_fault]
  | some out =>
    by_cases hout : out = NoTags
    · simp [fileMove, hne, dosCalls_appendLog, dosCalls_DosExec, DosExec_fst, hq, hout]
    · simp [fileMove, hne, dosCalls_appendLog, dosCalls_DosExec, DosExec_fst, hq, hout]

/-- Calls of `fileRemove` on a non-NULL path, in closed form. -/
theorem dosCalls_fileRemove (tagger : String) (dos : DosOracle) (p : String)
    (lParam : LPWSTR) (w : World) :
    dosCalls (fileRemove tagger dos (some p) lParam w) =
      dosCalls w ++ wsprintf (tagger ++ " query \"" ++ p ++ "\"") ::
        (match dos (dosCalls w).length (wsprintf (tagger ++ " query \"" ++ p ++ "\"")) with
          | some out =>
            if out ≠ NoTags then
              [wsprintf (tagger ++ " --files delete \"" ++ p ++ "\"")]
            else []
          | none => []) := by
  cases hq : dos (dosCalls w).length (wsprintf (tagger ++ " query \"" ++ p ++ "\"")) with
  | none =>
    simp [fileRemove, dosCalls_appendLog, dosCalls_DosExec, DosExec_fst, hq,
      dosCalls_fault]
  | some out =>
    by_cases hout : out = NoTags
    · simp [fileRemove, dosCalls_appendLog, dosCalls_DosExec, DosExec_fst, hq, hout]
    · simp [fileRemove, dosCalls_appendLog, dosCalls_DosExec, DosExec_fst, hq, hout]

/-- Calls of `fileRestore` on a non-NULL path, in closed form. -/
theorem dosCalls_fileRestore (tagger : String) (dos : DosOracle) (p : String)
    (lParam : LPWSTR) (w : World) :
    dosCalls (fileRestore tagger dos (some p) lParam w) =
      dosCalls w ++ wsprintf (tagger ++ " query \"" ++ p ++ "\"") ::
        (match dos (dosCalls w).length (wsprintf (tagger ++ " query \"" ++ p ++ "\"")) with
          | some out =>
            if out = NoTags then
              [wsprintf (tagger ++ " --files recover \"" ++ p ++ "\"")]
            else []
          | none => []) := by
  cases hq : dos (dosCalls w).length (wsprintf (tagger ++ " query \"" ++ p ++ "\"")) with
  | none =>
    simp [fileRestore, dosCalls_appendLog, dosCalls_DosExec, DosExec_fst, hq,
      dosCalls_fault]
  | some out =>
    by_cases hout : out = NoTags
    · simp [fileRestore, dosCalls_appendLog, dosCalls_DosExec, DosExec_fst, hq, hout]
    · simp [fileRestore, dosCalls_appendLog, dosCalls_DosExec, DosExec_fst, hq, hout]

/-- The query command line differs from each of the three reconciliation command
lines, as written by `wsprintf`, when the tagger path leaves room for two
characters. -/
theorem query_ne_command (tagger p x : String) (ht : tagger.length + 2 ≤ WSPRINTF_LIMIT) :
    wsprintf (tagger ++ " query \"" ++ p ++ "\"") ≠
        wsprintf (tagger ++ " --files rename \"" ++ p ++ "\" \"" ++ x ++ "\"") ∧
      wsprintf (tagger ++ " query \"" ++ p ++ "\"") ≠
        wsprintf (tagger ++ " --files delete \"" ++ p ++ "\"") ∧
      wsprintf (tagger ++ " query \"" ++ p ++ "\"") ≠
        wsprintf (tagger ++ " --files recover \"" ++ p ++ "\"") := by
  refine ⟨?_, ?_, ?_⟩
  · have := wsprintf_query_ne_files tagger (p ++ "\"")
      ("rename \"" ++ p ++ "\" \"" ++ x ++ "\"") ht
    intro h
    exact this (by simpa [String.append_assoc] using h)
  · have := wsprintf_query_ne_files tagger (p ++ "\"") ("delete \"" ++ p ++ "\"") ht
    intro h
    exact this (by simpa [String.append_assoc] using h)
  · have := wsprintf_query_ne_files tagger (p ++ "\"") ("recover \"" ++ p ++ "\"") ht
    intro h
    exact this (by simpa [String.append_assoc] using h)

/-- The texts formatted by the handlers are written whole when the longest of them,
the rename command line, fits. -/
theorem handler_texts_fit (tagger p dst : String)
    (hfit : (tagger ++ " --files rename \"" ++ p ++ "\" \"" ++ dst ++ "\"").length ≤
      WSPRINTF_LIMIT) :
    wsprintf ("    Src: " ++ p) = "    Src: " ++ p ∧
      wsprintf ("    Dst: " ++ dst) = "    Dst: " ++ dst ∧
      wsprintf ("    " ++ p) = "    " ++ p ∧
      wsprintf (tagger ++ " query \"" ++ p ++ "\"") = tagger ++ " query \"" ++ p ++ "\"" ∧
      wsprintf (tagger ++ " --files rename \"" ++ p ++ "\" \"" ++ dst ++ "\"") =
        tagger ++ " --files rename \"" ++ p ++ "\" \"" ++ dst ++ "\"" ∧
      wsprintf (tagger ++ " --files delete \"" ++ p ++ "\"") =
        tagger ++ " --files delete \"" ++ p ++ "\"" := by
  have l1 : " --files rename \"".length = 17 := rfl
  have l2 : "\" \"".length = 3 := rfl
  have l3 : "\"".length = 1 := rfl
  have l4 : "    Src: ".length = 9 := rfl
  have l5 : "    Dst: ".length = 9 := rfl
  have l6 : "    ".length = 4 := rfl
  have l7 : " query \"".length = 8 := rfl
  have l8 : " --files delete \"".length = 17 := rfl
  simp only [String.length_append, l1, l2, l3] at hfit
  refine ⟨?_, ?_, ?_, ?_, ?_, ?_⟩ <;> apply wsprintf_of_fits <;>
    simp only [String.length_append, l1, l2, l3, l4, l5, l6, l7, l8] <;> omega

/-- The texts formatted by `fileRemove` and `fileRestore` are written whole when the
recover command line fits. -/
theorem restore_texts_fit (tagger p : String)
    (hfit : (tagger ++ " --files recover \"" ++ p ++ "\"").length ≤ WSPRINTF_LIMIT) :
    wsprintf ("    " ++ p) = "    " ++ p ∧
      wsprintf (tagger ++ " query \"" ++ p ++ "\"") = tagger ++ " query \"" ++ p ++ "\"" ∧
      wsprintf (tagger ++ " --files delete \"" ++ p ++ "\"") =
        tagger ++ " --files delete \"" ++ p ++ "\"" ∧
      wsprintf (tagger ++ " --files recover \"" ++ p ++ "\"") =
        tagger ++ " --files recover \"" ++ p ++ "\"" := by
  have l1 : " --files recover \"".length = 18 := rfl
  have l3 : "\"".length = 1 := rfl
  have l6 : "    ".length = 4 := rfl
  have l7 : " query \"".length = 8 := rfl
  have l8 : " --files delete \"".length = 17 := rfl
  simp only [String.length_append, l1, l3] at hfit
  refine ⟨?_, ?_, ?_, ?_⟩ <;> apply wsprintf_of_fits <;>
    simp only [String.length_append, l1, l3, l6, l7, l8] <;> omega

/-- The loop logging the enumerated drives copies every drive and appends one
application-log entry per drive. -/
theorem logDrives_eq (ds : List String) (w : World) :
    logDrives ds w =
      (ds, w ++ ds.map fun d => Effect.log ⟨.ID_LOG_APP, [(.LB_ADDSTRING, d)]⟩) := by
  induction ds generalizing w with
  | nil => simp [logDrives]
  | cons d ds ih => simp [logDrives, ih, appendLog]

/-- The loop logging the recycle bins appends one application-log entry per drive whose
recycle bin path is not NULL. -/
theorem logRecycleBins_eq (env : Env) (ds : List String) (w : World) :
    logRecycleBins env ds w =
      w ++ ds.filterMap fun d =>
        (env.szRecycleBinPath d).map fun s =>
          Effect.log ⟨.ID_LOG_APP, [(.LB_ADDSTRING, s)]⟩ := by
  induction ds generalizing w with
  | nil => simp [logRecycleBins]
  | cons d ds ih =>
    cases h : env.szRecycleBinPath d <;> simp [logRecycleBins, ih, appendLog, h]

/-- The watch-list loop in closed form: each drive contributes its `AddPath` call,
followed by one warning entry when the result is not `E_FILESYSMON_SUCCESS`. -/
theorem addDrives_eq (env : Env) (i : Nat) (ds : List String) (w : World) :
    addDrives env i ds w =
      w ++ (List.enumFrom i ds).flatMap fun id =>
        Effect.addPath id.2 ::
          (if env.AddPath id.1 id.2 = env.E_FILESYSMON_SUCCESS then []
            else [Effect.log ⟨.ID_LOG_APP, [(.LB_ADDSTRING,
              "Error adding drive  " ++ id.2 ++ " to monitoring list")]⟩]) := by
  induction ds generalizing i w with
  | nil => simp [addDrives]
  | cons d ds ih =>
    by_cases h : env.AddPath i d = env.E_FILESYSMON_SUCCESS
    · simp [addDrives, ih, h, List.enumFrom_cons]
    · simp [addDrives, ih, h, List.enumFrom_cons, appendLog]

/-- The part of the trace that `StartMonitoring` produces before it calls `Init`:
application-log entries only. -/
theorem StartMonitoring_prelude (env : Env) (w : World) :
    ∃ pre : List Effect, (∀ e ∈ pre, ∃ s, e = Effect.log ⟨.ID_LOG_APP, [(.LB_ADDSTRING, s)]⟩) ∧
      StartMonitoring env w =
        if ¬ env.Init then
          (false, w ++ pre ++ [.notifierInit, .messageBox "Initialization Error"])
        else
          (true, addDrives env 0 (env.fixedDrives ++ env.remoteDrives)
              (w ++ pre ++ [.notifierInit]) ++
            [.addExclusion env.tempFolder, .addExclusion env.myTempFolder,
              .addExclusion (some (env.szHomeDirectory ++ "\\.tagger")), .bind, .start]) := by
  refine ⟨[Effect.log ⟨.ID_LOG_APP, [(.LB_ADDSTRING, "Applicaiton initialization...")]⟩,
      Effect.log ⟨.ID_LOG_APP, [(.LB_ADDSTRING,
        "Windows version: " ++ env.szVersion ++ " (" ++ env.szName ++ ")")]⟩,
      Effect.log ⟨.ID_LOG_APP, [(.LB_ADDSTRING,
        "tagger.exe command line: " ++ env.taggerCommandLinePath)]⟩,
      Effect.log ⟨.ID_LOG_APP, [(.LB_ADDSTRING, "Retrieved drives and recycle bins:")]⟩] ++
      (env.fixedDrives.map fun d => Effect.log ⟨.ID_LOG_APP, [(.LB_ADDSTRING, d)]⟩) ++
      (env.remoteDrives.map fun d => Effect.log ⟨.ID_LOG_APP, [(.LB_ADDSTRING, d)]⟩) ++
      ((env.fixedDrives ++ env.remoteDrives).filterMap fun d =>
        (env.szRecycleBinPath d).map fun s =>
          Effect.log ⟨.ID_LOG_APP, [(.LB_ADDSTRING, s)]⟩) ++
      [Effect.log ⟨.ID_LOG_APP, [(.LB_ADDSTRING, "Starting monitoring...")]⟩], ?_, ?_⟩
  · intro e he
    simp only [List.mem_append, List.mem_cons, List.mem_map, List.mem_filterMap,
      List.mem_singleton, List.not_mem_nil, or_false, Option.map_eq_some'] at he
    rcases he with ((((h | h | h | h) | ⟨d, _, h⟩) | ⟨d, _, h⟩) | ⟨d, _, s, _, h⟩) | h
    all_goals first
      | exact ⟨_, h⟩
      | exact ⟨_, h.symm⟩
  · simp [StartMonitoring, logDrives_eq, logRecycleBins_eq, appendLog]

/-- Log entries contain neither an `AddPath` call nor a message box. -/
theorem no_call_in_logs (pre : List Effect)
    (h : ∀ e ∈ pre, ∃ s, e = Effect.log ⟨.ID_LOG_APP, [(.LB_ADDSTRING, s)]⟩) :
    addPathCalls pre = [] ∧ messageBoxes pre = [] ∧ Effect.start ∉ pre := by
  induction pre with
  | nil => simp [addPathCalls, messageBoxes]
  | cons e es ih =>
    obtain ⟨s, rfl⟩ := h e (List.mem_cons_self _ _)
    have ih2 := ih fun e he => h e (List.mem_cons_of_mem _ he)
    simp only [addPathCalls, messageBoxes] at ih2 ⊢
    simp [ih2]

/-- The `AddPath` calls of the watch-list loop are the drives, in list order. -/
theorem addPathCalls_flatMap (env : Env) (i : Nat) (ds : List String) :
    addPathCalls ((List.enumFrom i ds).flatMap fun id =>
        Effect.addPath id.2 ::
          (if env.AddPath id.1 id.2 = env.E_FILESYSMON_SUCCESS then []
            else [Effect.log ⟨.ID_LOG_APP, [(.LB_ADDSTRING,
              "Error adding drive  " ++ id.2 ++ " to monitoring list")]⟩])) = ds ∧
      messageBoxes ((List.enumFrom i ds).flatMap fun id =>
        Effect.addPath id.2 ::
          (if env.AddPath id.1 id.2 = env.E_FILESYSMON_SUCCESS then []
            else [Effect.log ⟨.ID_LOG_APP, [(.LB_ADDSTRING,
              "Error adding drive  " ++ id.2 ++ " to monitoring list")]⟩])) = [] := by
  induction ds generalizing i with
  | nil => simp [addPathCalls, messageBoxes]
  | cons d ds ih =>
    have ih2 := ih (i + 1)
    simp only [addPathCalls, messageBoxes] at ih2 ⊢
    by_cases h : env.AddPath i d = env.E_FILESYSMON_SUCCESS
    · simp [List.enumFrom_cons, h, ih2]
    · simp [List.enumFrom_cons, h, ih2]

/-- Application-log entries contain no `AddExclusion` call. -/
theorem no_exclusion_in_logs (pre : List Effect)
    (h : ∀ e ∈ pre, ∃ s, e = Effect.log ⟨.ID_LOG_APP, [(.LB_ADDSTRING, s)]⟩) :
    exclusionCalls pre = [] := by
  induction pre with
  | nil => simp [exclusionCalls]
  | cons e es ih =>
    obtain ⟨s, rfl⟩ := h e (List.mem_cons_self _ _)
    have ih2 := ih fun e he => h e (List.mem_cons_of_mem _ he)
    simp only [exclusionCalls] at ih2 ⊢
    simp [ih2]

/-- The watch-list loop makes no `AddExclusion` call and does not call `Start`. -/
theorem watch_loop_no_exclusion (env : Env) (i : Nat) (ds : List String) :
    exclusionCalls ((List.enumFrom i ds).flatMap fun id =>
        Effect.addPath id.2 ::
          (if env.AddPath id.1 id.2 = env.E_FILESYSMON_SUCCESS then []
            else [Effect.log ⟨.ID_LOG_APP, [(.LB_ADDSTRING,
              "Error adding drive  " ++ id.2 ++ " to monitoring list")]⟩])) = [] ∧
      Effect.start ∉ ((List.enumFrom i ds).flatMap fun id =>
        Effect.addPath id.2 ::
          (if env.AddPath id.1 id.2 = env.E_FILESYSMON_SUCCESS then []
            else [Effect.log ⟨.ID_LOG_APP, [(.LB_ADDSTRING,
              "Error adding drive  " ++ id.2 ++ " to monitoring list")]⟩])) := by
  induction ds generalizing i with
  | nil => simp [exclusionCalls]
  | cons d ds ih =>
    have ih2 := ih (i + 1)
    simp only [exclusionCalls] at ih2 ⊢
    by_cases h : env.AddPath i d = env.E_FILESYSMON_SUCCESS
    · simp [List.enumFrom_cons, h, ih2]
    · simp [List.enumFrom_cons, h, ih2]

/-! ## The reconciliation handlers -/

/-- When the rename command line fits in the limit of `wsprintf`, and the query for the
old path returns a text other than the NoTags reply, `fileMove` on distinct paths calls
the tag store exactly twice: the query, then `<tagger> --files rename "old" "new"`. -/
theorem fileMove_tagged_within_limit (tagger : String) (dos : DosOracle)
    (src dst out : String) (w : World) (hne : src ≠ dst)
    (hfit : (tagger ++ " --files rename \"" ++ src ++ "\" \"" ++ dst ++ "\"").length ≤
      WSPRINTF_LIMIT)
    (hq : dos (dosCalls w).length (tagger ++ " query \"" ++ src ++ "\"") = some out)
    (hout : out ≠ NoTags) :
    dosCalls (fileMove tagger dos (some src) (some dst) w) =
      dosCalls w ++ [tagger ++ " query \"" ++ src ++ "\"",
        tagger ++ " --files rename \"" ++ src ++ "\" \"" ++ dst ++ "\""] := by
  obtain ⟨-, -, -, h4, h5, -⟩ := handler_texts_fit tagger src dst hfit
  rw [dosCalls_fileMove tagger dos src dst w hne, h4, h5, hq]
  simp [hout]

/-- When the delete command line fits in the limit of `wsprintf`, `fileRemove` queries
the path and then issues `<tagger> --files delete "p"` exactly when the reply is not the
NoTags reply. -/
theorem fileRemove_within_limit (tagger : String) (dos : DosOracle)
    (p out : String) (lParam : LPWSTR) (w : World)
    (hfit : (tagger ++ " --files delete \"" ++ p ++ "\"").length ≤ WSPRINTF_LIMIT)
    (hq : dos (dosCalls w).length (tagger ++ " query \"" ++ p ++ "\"") = some out) :
    dosCalls (fileRemove tagger dos (some p) lParam w) =
      dosCalls w ++ (tagger ++ " query \"" ++ p ++ "\"") ::
        (if out ≠ NoTags then [tagger ++ " --files delete \"" ++ p ++ "\""] else []) := by
  have l3 : "\"".length = 1 := rfl
  have l7 : " query \"".length = 8 := rfl
  have l8 : " --files delete \"".length = 17 := rfl
  simp only [String.length_append, l3, l8] at hfit
  have h4 : wsprintf (tagger ++ " query \"" ++ p ++ "\"") =
      tagger ++ " query \"" ++ p ++ "\"" := by
    apply wsprintf_of_fits
    simp only [String.length_append, l3, l7]
    omega
  have h5 : wsprintf (tagger ++ " --files delete \"" ++ p ++ "\"") =
      tagger ++ " --files delete \"" ++ p ++ "\"" := by
    apply wsprintf_of_fits
    simp only [String.length_append, l3, l8]
    omega
  rw [dosCalls_fileRemove tagger dos p lParam w, h4, h5, hq]

set_option maxRecDepth 100000 in
/-- C1 fails on the code: `C:\aaa...` is moved to `C:\bbb...`, two paths of 523
characters, and the query lists the tag `red`.  The rename command line has 1077
characters, `wsprintf` writes 1024 of them into `buff`, and the command passed to
`DosExec` is cut inside the new path: it names 471 of its 523 characters and has no
closing quote. -/
theorem fileMove_long_paths_rename_cut :
    dosCalls (fileMove "tagger.exe" (fun _ _ => some "red\r\n") (some longSrc)
        (some longDst) []) =
        ["tagger.exe query \"" ++ longSrc ++ "\"",
          "tagger.exe --files rename \"" ++ longSrc ++ "\" \"C:\\" ++
            String.mk (List.replicate 468 'b')] ∧
      longSrc.length = 523 ∧ longDst.length = 523 ∧ longSrc ≠ longDst ∧
      ("tagger.exe --files rename \"" ++ longSrc ++ "\" \"" ++ longDst ++ "\"").length =
        1077 ∧
      "tagger.exe --files rename \"" ++ longSrc ++ "\" \"C:\\" ++
          String.mk (List.replicate 468 'b') ≠
        "tagger.exe --files rename \"" ++ longSrc ++ "\" \"" ++ longDst ++ "\"" := by
  decide

/-- C2: for distinct paths, when the query for the old path returns the NoTags reply,
the only `DosExec` call made by `fileMove` is that query, `<tagger> query "old"` as
`wsprintf` writes it (the whole text when it has at most 1024 characters): no rename,
delete or recover command follows. -/
theorem fileMove_untagged_only_queries (tagger : String) (dos : DosOracle)
    (src dst : String) (w : World) (hne : src ≠ dst)
    (hq : dos (dosCalls w).length (wsprintf (tagger ++ " query \"" ++ src ++ "\"")) =
      some NoTags) :
    dosCalls (fileMove tagger dos (some src) (some dst) w) =
        dosCalls w ++ [wsprintf (tagger ++ " query \"" ++ src ++ "\"")] ∧
      ((tagger ++ " query \"" ++ src ++ "\"").length ≤ WSPRINTF_LIMIT →
        wsprintf (tagger ++ " query \"" ++ src ++ "\"") =
          tagger ++ " query \"" ++ src ++ "\"") := by
  refine ⟨?_, wsprintf_of_fits _⟩
  rw [dosCalls_fileMove tagger dos src dst w hne, hq]
  simp

/-- Witness of C2: an untagged `C:\a.txt` moved to `C:\b.txt`. -/
theorem fileMove_untagged_only_queries_witness :
    dosCalls (fileMove "tagger.exe" (fun _ _ => some NoTags)
        (some "C:\\a.txt") (some "C:\\b.txt") []) =
      dosCalls [] ++ [wsprintf ("tagger.exe" ++ " query \"" ++ "C:\\a.txt" ++ "\"")] :=
  (fileMove_untagged_only_queries "tagger.exe" (fun _ _ => some NoTags)
    "C:\\a.txt" "C:\\b.txt" [] (by decide) rfl).1

set_option maxRecDepth 100000 in
/-- C3 fails on the code: the file `C:\aaa...`, a path of 1000 characters that carries
the tag `red`, is removed.  The query fits, the delete command line has 1028 characters,
`wsprintf` writes 1024 of them, and the command passed to `DosExec` names 997 of the
1000 characters of the path and has no closing quote. -/
theorem fileRemove_long_path_delete_cut :
    dosCalls (fileRemove "tagger.exe" (fun _ _ => some "red\r\n") (some longPath) none
        []) =
        ["tagger.exe query \"" ++ longPath ++ "\"",
          "tagger.exe --files delete \"C:\\" ++ String.mk (List.replicate 994 'a')] ∧
      longPath.length = 1000 ∧
      ("tagger.exe --files delete \"" ++ longPath ++ "\"").length = 1028 ∧
      "tagger.exe --files delete \"C:\\" ++ String.mk (List.replicate 994 'a') ≠
        "tagger.exe --files delete \"" ++ longPath ++ "\"" := by
  decide

/-- C4, as stated, fails: on the NoTags reply `fileRestore` does issue a recover
command for `C:\c`, and on the reply `red` (a record with a tag) it issues none. -/
theorem fileRestore_claim_counterexample :
    dosCalls (fileRestore "tagger.exe" (fun _ _ => some NoTags) (some "C:\\c") none []) =
        ["tagger.exe query \"C:\\c\"", "tagger.exe --files recover \"C:\\c\""] ∧
      dosCalls (fileRestore "tagger.exe" (fun _ _ => some "red\r\n") (some "C:\\c") none
        []) = ["tagger.exe query \"C:\\c\""] := by
  decide

/-- C4, amended: for a path whose recover command line `<tagger> --files recover "p"`
has at most 1024 characters, the most `wsprintf` writes, `fileRestore` queries the path;
when the reply is the NoTags reply it issues exactly one recover command, that command
line, and when the reply is any other text it issues no command. -/
theorem fileRestore_recovers_iff_NoTags (tagger : String) (dos : DosOracle)
    (p out : String) (lParam : LPWSTR) (w : World)
    (hfit : (tagger ++ " --files recover \"" ++ p ++ "\"").length ≤ WSPRINTF_LIMIT)
    (hq : dos (dosCalls w).length (tagger ++ " query \"" ++ p ++ "\"") = some out) :
    (out = NoTags →
      dosCalls (fileRestore tagger dos (some p) lParam w) =
        dosCalls w ++ [tagger ++ " query \"" ++ p ++ "\"",
          tagger ++ " --files recover \"" ++ p ++ "\""]) ∧
    (out ≠ NoTags →
      dosCalls (fileRestore tagger dos (some p) lParam w) =
        dosCalls w ++ [tagger ++ " query \"" ++ p ++ "\""]) := by
  obtain ⟨-, h2, -, h4⟩ := restore_texts_fit tagger p hfit
  rw [dosCalls_fileRestore tagger dos p lParam w, h2, h4, hq]
  by_cases hout : out = NoTags <;> simp [hout]

/-- Witness of C4 amended: `C:\c` restored while the tag store answers NoTags. -/
theorem fileRestore_recovers_iff_NoTags_witness :
    dosCalls (fileRestore "tagger.exe" (fun _ _ => some NoTags) (some "C:\\c") none []) =
      dosCalls [] ++ ["tagger.exe" ++ " query \"" ++ "C:\\c" ++ "\"",
        "tagger.exe" ++ " --files recover \"" ++ "C:\\c" ++ "\""] :=
  (fileRestore_recovers_iff_NoTags "tagger.exe" (fun _ _ => some NoTags) "C:\\c"
    NoTags none [] (by decide) rfl).1 rfl

/-- C5: a move whose old and new path are the same string leaves the trace as it was:
`fileMove` makes no `DosExec` call and appends nothing to any log. -/
theorem fileMove_same_path_discarded (tagger : String) (dos : DosOracle) (p : String)
    (w : World) :
    fileMove tagger dos (some p) (some p) w = w ∧
      dosCalls (fileMove tagger dos (some p) (some p) w) = dosCalls w ∧
      logEntries (fileMove tagger dos (some p) (some p) w) = logEntries w := by
  simp [fileMove]

/-- C6, as stated, fails: when the query could not be executed and `DosExec` hands back
an empty text (no reply of the tag store), `fileMove` still issues the rename command
and `fileRemove` the delete command.  And whatever `DosExec` hands back for such a query,
the NULL pointer or any text, the failure is not both logged and the event dropped by
every handler: either it is the NULL pointer, nothing is logged after the command line
of the query and the NULL pointer reaches `wcscmp`; or `fileMove` issues its rename
command; or (the text being the NoTags reply) `fileRestore` issues its recover
command. -/
theorem failed_query_claim_counterexample :
    dosCalls (fileMove "tagger.exe" (fun _ _ => some "") (some "C:\\a") (some "C:\\b")
        []) = ["tagger.exe query \"C:\\a\"",
          "tagger.exe --files rename \"C:\\a\" \"C:\\b\""] ∧
      dosCalls (fileRemove "tagger.exe" (fun _ _ => some "") (some "C:\\a") none []) =
        ["tagger.exe query \"C:\\a\"", "tagger.exe --files delete \"C:\\a\""] ∧
      ∀ r : LPWSTR,
        fileMove "tagger.exe" (fun _ _ => r) (some "C:\\a") (some "C:\\b") [] =
            [.log ⟨.ID_LOG_FS, [(.LB_ADDSTRING, "File moved:")]⟩,
              .log ⟨.ID_LOG_FS, [(.LB_ADDSTRING, "    Src: C:\\a")]⟩,
              .log ⟨.ID_LOG_FS, [(.LB_ADDSTRING, "    Dst: C:\\b")]⟩,
              .log ⟨.ID_LOG_FS, [(.LB_ADDSTRING, "")]⟩,
              .dosExec "tagger.exe query \"C:\\a\"",
              .log ⟨.ID_LOG_TAGGER, [(.EM_REPLACESEL, "$>"),
                (.EM_REPLACESEL, "tagger.exe query \"C:\\a\""),
                (.EM_REPLACESEL, "\r\n")]⟩,
              .fault] ∨
          dosCalls (fileMove "tagger.exe" (fun _ _ => r) (some "C:\\a") (some "C:\\b")
            []) = ["tagger.exe query \"C:\\a\"",
              "tagger.exe --files rename \"C:\\a\" \"C:\\b\""] ∨
          dosCalls (fileRestore "tagger.exe" (fun _ _ => r) (some "C:\\a") none []) =
            ["tagger.exe query \"C:\\a\"", "tagger.exe --files recover \"C:\\a\""] := by
  refine ⟨by decide, by decide, ?_⟩
  intro r
  cases r with
  | none => exact Or.inl (by decide)
  | some out =>
    by_cases hout : out = NoTags
    · subst hout
      exact Or.inr (Or.inr (by decide))
    · refine Or.inr (Or.inl ?_)
      have h1 : wsprintf ("tagger.exe" ++ " query \"" ++ "C:\\a" ++ "\"") =
          "tagger.exe query \"C:\\a\"" := by decide
      have h2 : wsprintf ("tagger.exe" ++ " --files rename \"" ++ "C:\\a" ++ "\" \"" ++
          "C:\\b" ++ "\"") = "tagger.exe --files rename \"C:\\a\" \"C:\\b\"" := by decide
      rw [dosCalls_fileMove "tagger.exe" _ "C:\\a" "C:\\b" [] (by decide), h1, h2]
      simp [hout, dosCalls]

/-- C6, amended: the handlers do not test whether the query call was executed.  After
the entries of the filesystem log and the query, the query command line and then the
text `DosExec` has handed back are appended to the tagger log, and that text is
compared with the NoTags reply like any reply: for every text other than the NoTags
reply, `fileMove` goes on with the rename command and `fileRemove` with the delete
command, while `fileRestore` stops there and issues no command.  (Stated for command
lines that fit in the 1024 characters `wsprintf` writes.) -/
theorem failed_query_not_detected (tagger : String) (dos : DosOracle)
    (p dst out : String) (lParam : LPWSTR) (w : World) (hne : p ≠ dst)
    (hfit : (tagger ++ " --files rename \"" ++ p ++ "\" \"" ++ dst ++ "\"").length ≤
      WSPRINTF_LIMIT)
    (hq : dos (dosCalls w).length (tagger ++ " query \"" ++ p ++ "\"") = some out)
    (hout : out ≠ NoTags) :
    (∃ rest, fileMove tagger dos (some p) (some dst) w =
        w ++ [.log ⟨.ID_LOG_FS, [(.LB_ADDSTRING, "File moved:")]⟩,
          .log ⟨.ID_LOG_FS, [(.LB_ADDSTRING, "    Src: " ++ p)]⟩,
          .log ⟨.ID_LOG_FS, [(.LB_ADDSTRING, "    Dst: " ++ dst)]⟩,
          .log ⟨.ID_LOG_FS, [(.LB_ADDSTRING, "")]⟩,
          .dosExec (tagger ++ " query \"" ++ p ++ "\""),
          .log ⟨.ID_LOG_TAGGER, [(.EM_REPLACESEL, "$>"),
            (.EM_REPLACESEL, tagger ++ " query \"" ++ p ++ "\""),
            (.EM_REPLACESEL, "\r\n")]⟩,
          .log ⟨.ID_LOG_TAGGER, [(.EM_REPLACESEL, out), (.EM_REPLACESEL, "\r\n")]⟩] ++
          rest ∧
        dosCalls rest = [tagger ++ " --files rename \"" ++ p ++ "\" \"" ++ dst ++ "\""]) ∧
    (∃ rest, fileRemove tagger dos (some p) lParam w =
        w ++ [.log ⟨.ID_LOG_FS, [(.LB_ADDSTRING, "File deleted:")]⟩,
          .log ⟨.ID_LOG_FS, [(.LB_ADDSTRING, "    " ++ p)]⟩,
          .log ⟨.ID_LOG_FS, [(.LB_ADDSTRING, "")]⟩,
          .dosExec (tagger ++ " query \"" ++ p ++ "\""),
          .log ⟨.ID_LOG_TAGGER, [(.EM_REPLACESEL, "$>"),
            (.EM_REPLACESEL, tagger ++ " query \"" ++ p ++ "\""),
            (.EM_REPLACESEL, "\r\n")]⟩,
          .log ⟨.ID_LOG_TAGGER, [(.EM_REPLACESEL, out), (.EM_REPLACESEL, "\r\n")]⟩] ++
          rest ∧
        dosCalls rest = [tagger ++ " --files delete \"" ++ p ++ "\""]) ∧
    fileRestore tagger dos (some p) lParam w =
      w ++ [.log ⟨.ID_LOG_FS, [(.LB_ADDSTRING, "File restored:")]⟩,
        .log ⟨.ID_LOG_FS, [(.LB_ADDSTRING, "    " ++ p)]⟩,
        .log ⟨.ID_LOG_FS, [(.LB_ADDSTRING, "")]⟩,
        .dosExec (tagger ++ " query \"" ++ p ++ "\""),
        .log ⟨.ID_LOG_TAGGER, [(.EM_REPLACESEL, "$>"),
          (.EM_REPLACESEL, tagger ++ " query \"" ++ p ++ "\""),
          (.EM_REPLACESEL, "\r\n")]⟩,
        .log ⟨.ID_LOG_TAGGER, [(.EM_REPLACESEL, out), (.EM_REPLACESEL, "\r\n")]⟩] := by
  obtain ⟨h1, h2, h3, h4, h5, h6⟩ := handler_texts_fit tagger p dst hfit
  have hq2 := hq
  simp only [dosCalls] at hq2
  refine ⟨?_, ?_, ?_⟩
  · refine ⟨appendLog .ID_LOG_TAGGER
      (dos ((dosCalls w).length + 1)
        (tagger ++ " --files rename \"" ++ p ++ "\" \"" ++ dst ++ "\"")) false
      [.dosExec (tagger ++ " --files rename \"" ++ p ++ "\" \"" ++ dst ++ "\""),
        .log ⟨.ID_LOG_TAGGER, [(.EM_REPLACESEL, "$>"),
          (.EM_REPLACESEL, tagger ++ " --files rename \"" ++ p ++ "\" \"" ++ dst ++ "\""),
          (.EM_REPLACESEL, "\r\n")]⟩], ?_, ?_⟩
    · simp only [fileMove, DosExec, h1, h2, h4, h5, hne, if_false]
      simp only [appendLog, dosCalls]
      simp [hq2, hout]
      split <;> simp
    · rw [dosCalls_appendLog]
      simp [dosCalls]
  · refine ⟨appendLog .ID_LOG_TAGGER
      (dos ((dosCalls w).length + 1) (tagger ++ " --files delete \"" ++ p ++ "\"")) false
      [.dosExec (tagger ++ " --files delete \"" ++ p ++ "\""),
        .log ⟨.ID_LOG_TAGGER, [(.EM_REPLACESEL, "$>"),
          (.EM_REPLACESEL, tagger ++ " --files delete \"" ++ p ++ "\""),
          (.EM_REPLACESEL, "\r\n")]⟩], ?_, ?_⟩
    · simp only [fileRemove, DosExec, h3, h4, h6]
      simp only [appendLog, dosCalls]
      simp [hq2, hout]
      split <;> simp
    · rw [dosCalls_appendLog]
      simp [dosCalls]
  · simp only [fileRestore, DosExec, h3, h4]
    simp only [appendLog, dosCalls]
    simp [hq2, hout]

/-- Witness of C6 amended: the query for `C:\a` comes back with an empty text, and the
rename command follows the two entries of the tagger log. -/
theorem failed_query_not_detected_witness :
    ∃ rest, fileMove "tagger.exe" (fun _ _ => some "") (some "C:\\a") (some "C:\\b") [] =
        [] ++ [.log ⟨.ID_LOG_FS, [(.LB_ADDSTRING, "File moved:")]⟩,
          .log ⟨.ID_LOG_FS, [(.LB_ADDSTRING, "    Src: " ++ "C:\\a")]⟩,
          .log ⟨.ID_LOG_FS, [(.LB_ADDSTRING, "    Dst: " ++ "C:\\b")]⟩,
          .log ⟨.ID_LOG_FS, [(.LB_ADDSTRING, "")]⟩,
          .dosExec ("tagger.exe" ++ " query \"" ++ "C:\\a" ++ "\""),
          .log ⟨.ID_LOG_TAGGER, [(.EM_REPLACESEL, "$>"),
            (.EM_REPLACESEL, "tagger.exe" ++ " query \"" ++ "C:\\a" ++ "\""),
            (.EM_REPLACESEL, "\r\n")]⟩,
          .log ⟨.ID_LOG_TAGGER, [(.EM_REPLACESEL, ""), (.EM_REPLACESEL, "\r\n")]⟩] ++
          rest ∧
        dosCalls rest =
          ["tagger.exe" ++ " --files rename \"" ++ "C:\\a" ++ "\" \"" ++ "C:\\b" ++ "\""] :=
  (failed_query_not_detected "tagger.exe" (fun _ _ => some "") "C:\\a" "C:\\b" "" none []
    (by decide) (by decide) rfl (by decide)).1

/-- C7: whatever the tag store answers, each of `fileMove`, `fileRemove` and
`fileRestore` adds at most two `DosExec` calls.  An event rejected at entry (a NULL
path, or for `fileMove` two equal paths) adds none; every other event adds the query
first, exactly once, and after it at most one command, the reconciliation command of
the handler, which is only issued when the query has handed back a text and that text
has passed the comparison with the NoTags reply.  The command lines are the ones
`wsprintf` writes; they are all different as soon as the tagger path leaves room for two
more characters within the 1024 that `wsprintf` writes. -/
theorem handlers_query_then_at_most_one_command (tagger : String) (dos : DosOracle)
    (wParam lParam : LPWSTR) (w : World) :
    (∃ issued, dosCalls (fileMove tagger dos wParam lParam w) = dosCalls w ++ issued ∧
        issued.length ≤ 2 ∧ (tagger.length + 2 ≤ WSPRINTF_LIMIT → issued.Nodup) ∧
        (issued = [] ↔ (wParam = none ∨ lParam = none ∨ wParam = lParam)) ∧
        ∀ src dst, wParam = some src → lParam = some dst → src ≠ dst →
          issued = [wsprintf (tagger ++ " query \"" ++ src ++ "\"")] ∨
          (issued = [wsprintf (tagger ++ " query \"" ++ src ++ "\""),
              wsprintf (tagger ++ " --files rename \"" ++ src ++ "\" \"" ++ dst ++ "\"")] ∧
            ∃ out, dos (dosCalls w).length
                (wsprintf (tagger ++ " query \"" ++ src ++ "\"")) = some out ∧
              out ≠ NoTags)) ∧
    (∃ issued, dosCalls (fileRemove tagger dos wParam lParam w) = dosCalls w ++ issued ∧
        issued.length ≤ 2 ∧ (tagger.length + 2 ≤ WSPRINTF_LIMIT → issued.Nodup) ∧
        (issued = [] ↔ wParam = none) ∧
        ∀ p, wParam = some p →
          issued = [wsprintf (tagger ++ " query \"" ++ p ++ "\"")] ∨
          (issued = [wsprintf (tagger ++ " query \"" ++ p ++ "\""),
              wsprintf (tagger ++ " --files delete \"" ++ p ++ "\"")] ∧
            ∃ out, dos (dosCalls w).length
                (wsprintf (tagger ++ " query \"" ++ p ++ "\"")) = some out ∧
              out ≠ NoTags)) ∧
    (∃ issued, dosCalls (fileRestore tagger dos wParam lParam w) = dosCalls w ++ issued ∧
        issued.length ≤ 2 ∧ (tagger.length + 2 ≤ WSPRINTF_LIMIT → issued.Nodup) ∧
        (issued = [] ↔ wParam = none) ∧
        ∀ p, wParam = some p →
          issued = [wsprintf (tagger ++ " query \"" ++ p ++ "\"")] ∨
          (issued = [wsprintf (tagger ++ " query \"" ++ p ++ "\""),
              wsprintf (tagger ++ " --files recover \"" ++ p ++ "\"")] ∧
            ∃ out, dos (dosCalls w).length
                (wsprintf (tagger ++ " query \"" ++ p ++ "\"")) = some out ∧
              out = NoTags)) := by
  refine ⟨?_, ?_, ?_⟩
  · cases wParam with
    | none => exact ⟨[], by simp [fileMove]⟩
    | some src =>
      cases lParam with
      | none => exact ⟨[], by simp [fileMove]⟩
      | some dst =>
        by_cases hne : src = dst
        · exact ⟨[], by simp [fileMove, hne]⟩
        · rw [dosCalls_fileMove tagger dos src dst w hne]
          cases hq : dos (dosCalls w).length
              (wsprintf (tagger ++ " query \"" ++ src ++ "\"")) with
          | none => exact ⟨[wsprintf (tagger ++ " query \"" ++ src ++ "\"")], by simp [hne]⟩
          | some out =>
            by_cases hout : out = NoTags
            · exact ⟨[wsprintf (tagger ++ " query \"" ++ src ++ "\"")],
                by simp [hne, hout]⟩
            · refine ⟨[wsprintf (tagger ++ " query \"" ++ src ++ "\""),
                wsprintf (tagger ++ " --files rename \"" ++ src ++ "\" \"" ++ dst ++ "\"")],
                by simp [hout], by simp, ?_, by simp [hne], ?_⟩
              · intro ht
                simpa using (query_ne_command tagger src dst ht).1
              · intro s d hs hd _
                cases hs
                cases hd
                exact Or.inr ⟨rfl, out, hq, hout⟩
  · cases wParam with
    | none => exact ⟨[], by simp [fileRemove]⟩
    | some p =>
      rw [dosCalls_fileRemove tagger dos p lParam w]
      cases hq : dos (dosCalls w).length
          (wsprintf (tagger ++ " query \"" ++ p ++ "\"")) with
      | none => exact ⟨[wsprintf (tagger ++ " query \"" ++ p ++ "\"")], by simp⟩
      | some out =>
        by_cases hout : out = NoTags
        · exact ⟨[wsprintf (tagger ++ " query \"" ++ p ++ "\"")], by simp [hout]⟩
        · refine ⟨[wsprintf (tagger ++ " query \"" ++ p ++ "\""),
            wsprintf (tagger ++ " --files delete \"" ++ p ++ "\"")],
            by simp [hout], by simp, ?_, by simp, ?_⟩
          · intro ht
            simpa using (query_ne_command tagger p p ht).2.1
          · intro q hq2
            cases hq2
            exact Or.inr ⟨rfl, out, hq, hout⟩
  · cases wParam with
    | none => exact ⟨[], by simp [fileRestore]⟩
    | some p =>
      rw [dosCalls_fileRestore tagger dos p lParam w]
      cases hq : dos (dosCalls w).length
          (wsprintf (tagger ++ " query \"" ++ p ++ "\"")) with
      | none => exact ⟨[wsprintf (tagger ++ " query \"" ++ p ++ "\"")], by simp⟩
      | some out =>
        by_cases hout : out = NoTags
        · refine ⟨[wsprintf (tagger ++ " query \"" ++ p ++ "\""),
            wsprintf (tagger ++ " --files recover \"" ++ p ++ "\"")],
            by simp [hout], by simp, ?_, by simp, ?_⟩
          · intro ht
            simpa using (query_ne_command tagger p p ht).2.2
          · intro q hq2
            cases hq2
            exact Or.inr ⟨rfl, out, hq, hout⟩
        · exact ⟨[wsprintf (tagger ++ " query \"" ++ p ++ "\"")], by simp [hout]⟩

/-- C8, as stated, fails: removing the untagged `C:\c` appends five entries through
`appendLog`, not one. -/
theorem fileRemove_untagged_log_counterexample :
    (logEntries (fileRemove "tagger.exe" (fun _ _ => some NoTags) (some "C:\\c") none
        [])).length = 5 ∧
      ¬ (logEntries (fileRemove "tagger.exe" (fun _ _ => some NoTags) (some "C:\\c") none
        [])).length = 1 := by
  decide

/-- C8, amended: when the query for a removed path returns the NoTags reply,
`fileRemove` issues no command (the query is its only `DosExec` call) and appends five
entries through `appendLog`: three to the filesystem log (the heading, the path, an
empty line) and two to the tagger log (the query command line and the reply).  The path
line and the query command line are the texts `wsprintf` writes, the whole texts when
the query command line has at most 1024 characters. -/
theorem fileRemove_untagged_no_command_five_entries (tagger : String) (dos : DosOracle)
    (p : String) (lParam : LPWSTR) (w : World)
    (hq : dos (dosCalls w).length (wsprintf (tagger ++ " query \"" ++ p ++ "\"")) =
      some NoTags) :
    dosCalls (fileRemove tagger dos (some p) lParam w) =
        dosCalls w ++ [wsprintf (tagger ++ " query \"" ++ p ++ "\"")] ∧
      logEntries (fileRemove tagger dos (some p) lParam w) =
        logEntries w ++
          [⟨.ID_LOG_FS, [(.LB_ADDSTRING, "File deleted:")]⟩,
            ⟨.ID_LOG_FS, [(.LB_ADDSTRING, wsprintf ("    " ++ p))]⟩,
            ⟨.ID_LOG_FS, [(.LB_ADDSTRING, "")]⟩,
            ⟨.ID_LOG_TAGGER, [(.EM_REPLACESEL, "$>"),
              (.EM_REPLACESEL, wsprintf (tagger ++ " query \"" ++ p ++ "\"")),
              (.EM_REPLACESEL, "\r\n")]⟩,
            ⟨.ID_LOG_TAGGER, [(.EM_REPLACESEL, NoTags), (.EM_REPLACESEL, "\r\n")]⟩] ∧
      ((tagger ++ " query \"" ++ p ++ "\"").length ≤ WSPRINTF_LIMIT →
        wsprintf ("    " ++ p) = "    " ++ p ∧
          wsprintf (tagger ++ " query \"" ++ p ++ "\"") =
            tagger ++ " query \"" ++ p ++ "\"") := by
  have hq2 := hq
  simp only [dosCalls] at hq2
  refine ⟨by simp [dosCalls_fileRemove, hq], ?_, ?_⟩
  · simp only [fileRemove, DosExec, appendLog, dosCalls]
    simp [hq2, logEntries]
  · intro hfit
    have l3 : "\"".length = 1 := rfl
    have l6 : "    ".length = 4 := rfl
    have l7 : " query \"".length = 8 := rfl
    refine ⟨wsprintf_of_fits _ ?_, wsprintf_of_fits _ hfit⟩
    simp only [String.length_append, l3, l6, l7] at hfit ⊢
    omega

/-- Witness of C8 amended: the untagged `C:\c` is removed. -/
theorem fileRemove_untagged_no_command_five_entries_witness :
    dosCalls (fileRemove "tagger.exe" (fun _ _ => some NoTags) (some "C:\\c") none []) =
        dosCalls [] ++ [wsprintf ("tagger.exe" ++ " query \"" ++ "C:\\c" ++ "\"")] :=
  (fileRemove_untagged_no_command_five_entries "tagger.exe" (fun _ _ => some NoTags)
    "C:\\c" none [] rfl).1

/-! ## Start of the monitoring -/

/-- C9: when the notifier initialises, `StartMonitoring` first appends application-log
entries only, calls `Init`, then goes through the enumerated drives (fixed, then remote)
in list order: for each drive it calls `AddPath` once, and appends one warning entry
naming that drive to the application log exactly when the result is not
`E_FILESYSMON_SUCCESS`; a failure stops nothing: the three exclusions, `bind` and
`Start` follow, and `TRUE` is returned.  The `AddPath` calls are the drives in list
order. -/
theorem StartMonitoring_adds_every_drive (env : Env) (w : World)
    (hInit : env.Init = true) :
    ∃ pre : List Effect,
      (∀ e ∈ pre, ∃ s, e = Effect.log ⟨.ID_LOG_APP, [(.LB_ADDSTRING, s)]⟩) ∧
      (StartMonitoring env w).2 =
        w ++ pre ++ [.notifierInit] ++
          ((List.enumFrom 0 (env.fixedDrives ++ env.remoteDrives)).flatMap fun id =>
            Effect.addPath id.2 ::
              (if env.AddPath id.1 id.2 = env.E_FILESYSMON_SUCCESS then []
                else [Effect.log ⟨.ID_LOG_APP, [(.LB_ADDSTRING,
                  "Error adding drive  " ++ id.2 ++ " to monitoring list")]⟩])) ++
          [.addExclusion env.tempFolder, .addExclusion env.myTempFolder,
            .addExclusion (some (env.szHomeDirectory ++ "\\.tagger")), .bind, .start] ∧
      (StartMonitoring env w).1 = true ∧
      addPathCalls (StartMonitoring env w).2 =
        addPathCalls w ++ (env.fixedDrives ++ env.remoteDrives) := by
  obtain ⟨pre, hpre, h⟩ := StartMonitoring_prelude env w
  have hlogs := no_call_in_logs pre hpre
  have hloop := addPathCalls_flatMap env 0 (env.fixedDrives ++ env.remoteDrives)
  refine ⟨pre, hpre, ?_, ?_, ?_⟩
  · simp [h, hInit, addDrives_eq]
  · simp [h, hInit]
  · rw [h]
    simp only [hInit, addDrives_eq]
    simp only [addPathCalls] at hlogs hloop ⊢
    simp [hlogs.1, hloop.1]

/-- Witness of C9: two drives, `AddPath` failing for both; both are attempted. -/
theorem StartMonitoring_adds_every_drive_witness :
    addPathCalls (StartMonitoring envFailingDrives []).2 =
      addPathCalls [] ++ (envFailingDrives.fixedDrives ++ envFailingDrives.remoteDrives) :=
  (StartMonitoring_adds_every_drive envFailingDrives [] rfl).elim fun _ h => h.2.2.2

/-- C10, as stated, fails: with no drive enumerated, and with `AddPath` failing for
every enumerated drive, `StartMonitoring` shows no message box, calls `Start` and
returns `TRUE`. -/
theorem StartMonitoring_no_volume_claim_counterexample :
    ((StartMonitoring envNoDrive []).1 = true ∧
        Effect.start ∈ (StartMonitoring envNoDrive []).2 ∧
        messageBoxes (StartMonitoring envNoDrive []).2 = [] ∧
        addPathCalls (StartMonitoring envNoDrive []).2 = []) ∧
      ((StartMonitoring envFailingDrives []).1 = true ∧
        Effect.start ∈ (StartMonitoring envFailingDrives []).2 ∧
        messageBoxes (StartMonitoring envFailingDrives []).2 = [] ∧
        addPathCalls (StartMonitoring envFailingDrives []).2 = ["C:\\", "Z:\\"] ∧
        envFailingDrives.AddPath 0 "C:\\" ≠ envFailingDrives.E_FILESYSMON_SUCCESS ∧
        envFailingDrives.AddPath 1 "Z:\\" ≠ envFailingDrives.E_FILESYSMON_SUCCESS) := by
  decide

/-- C10, amended: no result of `AddPath` is fatal.  When the notifier initialises,
`StartMonitoring` shows no message box, calls `Start` and returns `TRUE`, whatever
`AddPath` returns for the drives and also when no drive is enumerated.  The only
initialisation error it reports is the failure of `Init`: it then shows
"Initialization Error", returns `FALSE`, and neither adds a path nor calls `Start`. -/
theorem StartMonitoring_fatal_only_on_Init (env : Env) (w : World) :
    (env.Init = true →
      (StartMonitoring env w).1 = true ∧
        ∃ added, (StartMonitoring env w).2 = w ++ added ∧
          Effect.start ∈ added ∧ messageBoxes added = []) ∧
    (env.Init = false →
      (StartMonitoring env w).1 = false ∧
        ∃ added, (StartMonitoring env w).2 = w ++ added ∧
          Effect.start ∉ added ∧ messageBoxes added = ["Initialization Error"] ∧
          addPathCalls added = []) := by
  obtain ⟨pre, hpre, h⟩ := StartMonitoring_prelude env w
  have hlogs := no_call_in_logs pre hpre
  have hloop := addPathCalls_flatMap env 0 (env.fixedDrives ++ env.remoteDrives)
  constructor
  · intro hInit
    refine ⟨by simp [h, hInit], _, by simp [h, hInit, addDrives_eq]; rfl, by simp, ?_⟩
    simp only [messageBoxes] at hlogs hloop ⊢
    simp [hlogs.2.1, hloop.2]
  · intro hInit
    refine ⟨by simp [h, hInit], _, by simp [h, hInit]; rfl, ?_, ?_, ?_⟩
    · simp [hlogs.2.2]
    · simp only [messageBoxes] at hlogs ⊢
      simp [hlogs.2.1]
    · simp only [addPathCalls] at hlogs ⊢
      simp [hlogs.1]

/-- Witness of C10 amended: no drive is enumerated and the start succeeds. -/
theorem StartMonitoring_fatal_only_on_Init_witness :
    (StartMonitoring envNoDrive []).1 = true ∧
      ∃ added, (StartMonitoring envNoDrive []).2 = [] ++ added ∧
        Effect.start ∈ added ∧ messageBoxes added = [] :=
  (StartMonitoring_fatal_only_on_Init envNoDrive []).1 rfl

/-- C11: in a run of `StartMonitoring` that reaches `Start`, the call to `Start` is the
last effect of the run, so no path and no exclusion is added after it; before it the
notifier has received exactly three `AddExclusion` calls, in this order: the system
temp folder, the temp folder of the user, and the home directory followed by
`\.tagger`. -/
theorem StartMonitoring_exclusions_before_Start (env : Env) (w : World)
    (added : List Effect) (hrun : (StartMonitoring env w).2 = w ++ added)
    (hstart : Effect.start ∈ added) :
    ∃ before, added = before ++ [Effect.start] ∧ Effect.start ∉ before ∧
      exclusionCalls before =
        [env.tempFolder, env.myTempFolder, some (env.szHomeDirectory ++ "\\.tagger")] := by
  obtain ⟨pre, hpre, h⟩ := StartMonitoring_prelude env w
  have hlogs := no_call_in_logs pre hpre
  have hex := no_exclusion_in_logs pre hpre
  have hloop := watch_loop_no_exclusion env 0 (env.fixedDrives ++ env.remoteDrives)
  cases hInit : env.Init with
  | false =>
    rw [h] at hrun
    simp only [hInit, Bool.false_eq_true, not_false_eq_true, if_true, List.append_assoc,
      List.append_cancel_left_eq] at hrun
    subst hrun
    simp [hlogs.2.2] at hstart
  | true =>
    rw [h] at hrun
    simp only [hInit, not_true_eq_false, if_false, addDrives_eq, List.append_assoc,
      List.append_cancel_left_eq] at hrun
    subst hrun
    refine ⟨pre ++ ([Effect.notifierInit] ++
      ((List.enumFrom 0 (env.fixedDrives ++ env.remoteDrives)).flatMap fun id =>
        Effect.addPath id.2 ::
          (if env.AddPath id.1 id.2 = env.E_FILESYSMON_SUCCESS then []
            else [Effect.log ⟨.ID_LOG_APP, [(.LB_ADDSTRING,
              "Error adding drive  " ++ id.2 ++ " to monitoring list")]⟩])) ++
        [.addExclusion env.tempFolder, .addExclusion env.myTempFolder,
          .addExclusion (some (env.szHomeDirectory ++ "\\.tagger")), .bind]), ?_, ?_, ?_⟩
    · simp
    · simp only [List.mem_append, not_or]
      exact ⟨hlogs.2.2, ⟨by simp, hloop.2⟩, by simp⟩
    · simp only [exclusionCalls] at hex hloop ⊢
      simp [hex, hloop.1]

/-- Witness of C11: the run on a machine without drives reaches `Start`. -/
theorem StartMonitoring_exclusions_before_Start_witness :
    ∃ before, (StartMonitoring envNoDrive []).2 = before ++ [Effect.start] ∧
      Effect.start ∉ before ∧
      exclusionCalls before =
        [envNoDrive.tempFolder, envNoDrive.myTempFolder,
          some (envNoDrive.szHomeDirectory ++ "\\.tagger")] :=
  StartMonitoring_exclusions_before_Start envNoDrive [] (StartMonitoring envNoDrive []).2
    rfl (by decide)

end Tfmon

namespace Correlator

/-- Setting the slot of one volume and then of another one can be done in either
order. -/
theorem State.set_comm (σ : State) (u v : String) (x y : Option String) (h : u ≠ v) :
    (σ.set v x).set u y = (σ.set u y).set v x := by
  funext z
  simp only [State.set]
  by_cases hzu : z = u
  · have hzv : z ≠ v := fun hv => h (hzu ▸ hv)
    simp [hzu, h]
  · simp [hzu]

/-- A step for an event of another volume does not look at the slot of volume `v` and
leaves it as it is. -/
theorem step_set (excluded : String → Bool) (fromIdle : RawEvent → List SemanticEvent)
    (σ : State) (v : String) (x : Option String) (e : RawEvent) (h : e.volume ≠ v) :
    step excluded fromIdle (σ.set v x) e =
      ((step excluded fromIdle σ e).1.set v x, (step excluded fromIdle σ e).2) := by
  have hread : (σ.set v x) e.volume = σ e.volume := by simp [State.set, h]
  unfold step
  rw [hread]
  by_cases hex : excluded e.path = true
  · simp [hex]
  · simp only [hex, Bool.false_eq_true, if_false]
    cases e.kind <;> cases σ e.volume <;> simp [State.set_comm σ e.volume v _ _ h]

/-- A run over a sequence is the step for its first event followed by the run over the
rest. -/
theorem run_cons (excluded : String → Bool) (fromIdle : RawEvent → List SemanticEvent)
    (σ : State) (e : RawEvent) (es : List RawEvent) :
    run excluded fromIdle σ (e :: es) =
      ((run excluded fromIdle (step excluded fromIdle σ e).1 es).1,
        (step excluded fromIdle σ e).2 ++
          (run excluded fromIdle (step excluded fromIdle σ e).1 es).2) := rfl

/-- A run over events of other volumes does not look at the slot of volume `v` and
leaves it as it is. -/
theorem run_set (excluded : String → Bool) (fromIdle : RawEvent → List SemanticEvent)
    (v : String) (x : Option String) (es : List RawEvent) (h : ∀ e ∈ es, e.volume ≠ v) :
    ∀ σ : State, run excluded fromIdle (σ.set v x) es =
      ((run excluded fromIdle σ es).1.set v x, (run excluded fromIdle σ es).2) := by
  induction es with
  | nil => intro σ; rfl
  | cons e es ih =>
    intro σ
    have he : e.volume ≠ v := h e (List.mem_cons_self _ _)
    have hes : ∀ e ∈ es, e.volume ≠ v := fun e' h' => h e' (List.mem_cons_of_mem _ h')
    rw [run_cons, run_cons, step_set excluded fromIdle σ v x e he]
    simp only [ih hes]

/-- A run over two sequences is the run over the first followed by the run over the
second. -/
theorem run_append (excluded : String → Bool) (fromIdle : RawEvent → List SemanticEvent)
    (es1 es2 : List RawEvent) :
    ∀ σ : State, run excluded fromIdle σ (es1 ++ es2) =
      ((run excluded fromIdle (run excluded fromIdle σ es1).1 es2).1,
        (run excluded fromIdle σ es1).2 ++
          (run excluded fromIdle (run excluded fromIdle σ es1).1 es2).2) := by
  induction es1 with
  | nil => intro σ; simp [run]
  | cons e es ih =>
    intro σ
    rw [List.cons_append, run_cons, run_cons, ih]
    simp only [List.append_assoc]

/-- C12: on the modelled correlator, for every volume `v`, every state and all paths
`p` and `q` of raw events (paths that are not excluded), a `RenamedOld(p)` followed on
the same volume by `RenamedNew(q)` emits exactly one event for the pair,
`Moved{from:p, to:q}`, the one posted to `fileMove` with `wParam = p` and `lParam = q`:
events of other volumes that arrive in between emit what they emit without the pair,
the `Moved` comes right after them, the volume is `Idle` again, and a further
`RenamedNew` on the volume emits nothing more.  Delivering what the pair emitted is
one call of `fileMove` with `wParam = p` and `lParam = q`. -/
theorem rename_pair_emits_one_Moved (excluded : String → Bool)
    (fromIdle : RawEvent → List SemanticEvent) (σ : State) (v p q q2 : String)
    (n1 t1 n2 t2 n3 t3 : Nat) (mid : List RawEvent)
    (tagger : String) (dos : Tfmon.DosOracle) (w : Tfmon.World)
    (hp : excluded p = false) (hq : excluded q = false)
    (hmid : ∀ e ∈ mid, e.volume ≠ v) :
    (run excluded fromIdle σ
        [⟨v, .RenamedOld, p, n1, t1⟩, ⟨v, .RenamedNew, q, n2, t2⟩]).2 =
        [SemanticEvent.Moved p q] ∧
      (run excluded fromIdle σ
        (⟨v, .RenamedOld, p, n1, t1⟩ :: mid ++ [⟨v, .RenamedNew, q, n2, t2⟩])).2 =
        (run excluded fromIdle σ mid).2 ++ [SemanticEvent.Moved p q] ∧
      (run excluded fromIdle σ
        (⟨v, .RenamedOld, p, n1, t1⟩ :: mid ++ [⟨v, .RenamedNew, q, n2, t2⟩])).1 v =
        none ∧
      (run excluded fromIdle σ
        (⟨v, .RenamedOld, p, n1, t1⟩ :: mid ++
          [⟨v, .RenamedNew, q, n2, t2⟩, ⟨v, .RenamedNew, q2, n3, t3⟩])).2 =
        (run excluded fromIdle σ mid).2 ++ [SemanticEvent.Moved p q] ∧
      (run excluded fromIdle σ
        [⟨v, .RenamedOld, p, n1, t1⟩, ⟨v, .RenamedNew, q, n2, t2⟩]).2.foldl
          (deliver tagger dos) w =
        Tfmon.fileMove tagger dos (some p) (some q) w := by
  have hold : step excluded fromIdle σ ⟨v, .RenamedOld, p, n1, t1⟩ =
      (σ.set v (some p), []) := by
    simp [step, hp]
  have hnew : ∀ τ : State, step excluded fromIdle (τ.set v (some p))
      ⟨v, .RenamedNew, q, n2, t2⟩ = ((τ.set v (some p)).set v none, [.Moved p q]) := by
    intro τ
    simp [step, hq, State.set]
  have hidle : ∀ τ : State, (step excluded fromIdle (τ.set v none)
      ⟨v, .RenamedNew, q2, n3, t3⟩).2 = [] := by
    intro τ
    by_cases hq2 : excluded q2 = true
    · simp [step, hq2]
    · simp [step, hq2, State.set]
  have hmidrun := run_set excluded fromIdle v (some p) mid hmid σ
  have hcons : ∀ tail : List RawEvent,
      run excluded fromIdle σ (⟨v, .RenamedOld, p, n1, t1⟩ :: mid ++ tail) =
        ((run excluded fromIdle ((run excluded fromIdle σ mid).1.set v (some p)) tail).1,
          (run excluded fromIdle σ mid).2 ++
            (run excluded fromIdle ((run excluded fromIdle σ mid).1.set v (some p))
              tail).2) := by
    intro tail
    rw [List.cons_append, run_cons, hold, run_append, hmidrun]
    simp only [List.nil_append]
  have hpair : (run excluded fromIdle σ
      [⟨v, .RenamedOld, p, n1, t1⟩, ⟨v, .RenamedNew, q, n2, t2⟩]).2 =
      [SemanticEvent.Moved p q] := by
    rw [run_cons, hold, run_cons, hnew]
    simp [run]
  refine ⟨hpair, ?_, ?_, ?_, ?_⟩
  rotate_left 3
  · rw [hpair]
    rfl
  · rw [hcons, run_cons, hnew]
    simp [run]
  · rw [hcons, run_cons, hnew]
    simp [run, State.set]
  · rw [hcons, run_cons, hnew, run_cons, hidle]
    simp [run]

/-- Witness of C12: `C:\a` renamed to `C:\b` on volume `C:` while a file is created on
volume `D:`. -/
theorem rename_pair_emits_one_Moved_witness :
    (run (fun _ => false) (fun _ => []) idle
        (⟨"C:", .RenamedOld, "C:\\a", 1, 0⟩ :: [⟨"D:", .Created, "D:\\x", 1, 0⟩] ++
          [⟨"C:", .RenamedNew, "C:\\b", 2, 0⟩])).2 =
      (run (fun _ => false) (fun _ => []) idle [⟨"D:", .Created, "D:\\x", 1, 0⟩]).2 ++
        [SemanticEvent.Moved "C:\\a" "C:\\b"] :=
  (rename_pair_emits_one_Moved (fun _ => false) (fun _ => []) idle "C:" "C:\\a" "C:\\b"
    "C:\\c" 1 0 2 0 3 0 [⟨"D:", .Created, "D:\\x", 1, 0⟩] "tagger.exe" (fun _ _ => none) []
    rfl rfl (by decide)).2.1

end Correlator

namespace Tftag

open Win32

/-! ## Auxiliary facts -/

/-- `wcsstr(str, pattern) == str` says that `str` begins with `pattern`. -/
theorem wcsstr_eq_zero (str pattern : List Char) :
    wcsstr str pattern = some 0 ↔ pattern.isPrefixOf str = true := by
  cases str with
  | nil => simp [wcsstr]
  | cons c cs =>
    by_cases h : pattern.isPrefixOf (c :: cs) = true
    · simp [wcsstr, h]
    · simp only [wcsstr, h]
      cases wcsstr cs pattern <;> simp

/-- Selecting items does not change the texts of a list box. -/
theorem texts_LB_SELITEMRANGE (lb : ListBox) (a b : Nat) :
    texts (LB_SELITEMRANGE lb a b) = texts lb := by
  simp only [texts, LB_SELITEMRANGE, List.map_map]
  have : (Prod.fst ∘ fun it : Nat × String × Bool =>
      (it.2.1, it.2.2 || (decide (a ≤ it.1) && decide (it.1 ≤ b)))) =
      (Prod.fst ∘ Prod.snd) := by
    funext it
    rfl
  rw [this, ← List.map_map, List.enum_map_snd]

/-- The loop of `updateTagName` appends the texts that begin with the pattern. -/
theorem texts_updateTagNameLoop (pattern : String) (l : List String) (lb : ListBox) :
    texts (updateTagNameLoop pattern l lb) =
      texts lb ++ l.filter fun t => pattern.data.isPrefixOf t.data := by
  induction l generalizing lb with
  | nil => simp [updateTagNameLoop]
  | cons str rest ih =>
    have hlen : pattern.length = 0 → pattern.data.isPrefixOf str.data = true := by
      intro h
      have : pattern.data = [] := List.length_eq_zero.mp h
      simp [this]
    by_cases h : pattern.data.isPrefixOf str.data = true
    · by_cases hs : str = pattern
      · simp [updateTagNameLoop, ih, wcsstr_eq_zero, h, hs, LB_ADDSTRING,
          texts_LB_SELITEMRANGE]
        simp [texts]
      · simp [updateTagNameLoop, ih, wcsstr_eq_zero, h, hs, LB_ADDSTRING]
        simp [texts]
    · have h0 : ¬ pattern.length = 0 := fun h0 => h (hlen h0)
      simp [updateTagNameLoop, ih, wcsstr_eq_zero, h, h0]

/-- One `wcstok` call on a text that starts with a line without line feed, ended by
carriage return and line feed. -/
theorem wcstok_line (t rest : List Char) (ht : '\n' ∉ t) :
    wcstok ['\n'] (t ++ '\r' :: '\n' :: rest) = some (t ++ ['\r'], rest) := by
  have hall : ∀ a ∈ t ++ ['\r'], (fun x => !List.contains ['\n'] x) a = true := by
    intro a ha
    simp only [List.mem_append, List.mem_singleton] at ha
    rcases ha with ha | ha
    · have : a ≠ '\n' := fun h => ht (h ▸ ha)
      simp [this]
    · subst ha
      decide
  have hsplit : t ++ '\r' :: '\n' :: rest = (t ++ ['\r']) ++ '\n' :: rest := by simp
  have hne : ∃ c cs, t ++ '\r' :: '\n' :: rest = c :: cs ∧ ['\n'].contains c = false := by
    cases t with
    | nil => exact ⟨'\r', '\n' :: rest, rfl, by decide⟩
    | cons c cs =>
      refine ⟨c, cs ++ '\r' :: '\n' :: rest, rfl, ?_⟩
      have : c ≠ '\n' := fun h => ht (h ▸ List.mem_cons_self _ _)
      simp [this]
  obtain ⟨c, cs, hc, hcd⟩ := hne
  have hdrop : (t ++ '\r' :: '\n' :: rest).dropWhile ['\n'].contains = c :: cs := by
    rw [hc, List.dropWhile_cons, hcd]
    simp
  unfold wcstok
  rw [hdrop]
  dsimp only
  rw [← hc, hsplit]
  rw [List.takeWhile_append_of_pos hall, List.dropWhile_append_of_pos hall]
  simp [List.takeWhile_cons, List.dropWhile_cons]

/-- The `wcstok` loop over the line format gives back the lines, when there is at
least as much fuel as lines. -/
theorem wcstokLines_tagLines (tags : List (List Char)) (hlf : ∀ t ∈ tags, '\n' ∉ t)
    (fuel : Nat) (hfuel : tags.length ≤ fuel) :
    wcstokLines fuel (tags.map fun t => t ++ ['\r', '\n']).flatten = tags := by
  induction tags generalizing fuel with
  | nil =>
    cases fuel with
    | zero => rfl
    | succ n => simp [wcstokLines, wcstok]
  | cons t ts ih =>
    cases fuel with
    | zero => simp at hfuel
    | succ n =>
      have ht : '\n' ∉ t := hlf t (List.mem_cons_self _ _)
      have hts : ∀ u ∈ ts, '\n' ∉ u := fun u hu => hlf u (List.mem_cons_of_mem _ hu)
      have hn : ts.length ≤ n := by simpa using hfuel
      simp only [List.map_cons, List.flatten_cons, List.append_assoc, List.cons_append,
        List.nil_append, wcstokLines]
      rw [wcstok_line t _ ht]
      simp [ih hts n hn]

/-- A `wcstok` call that returns a token leaves a shorter text. -/
theorem wcstok_rest_lt (delim s tok rest : List Char)
    (h : wcstok delim s = some (tok, rest)) : rest.length < s.length := by
  unfold wcstok at h
  cases hs : s.dropWhile delim.contains with
  | nil => simp [hs] at h
  | cons c cs =>
    rw [hs] at h
    simp only [Option.some.injEq, Prod.mk.injEq] at h
    have hc : delim.contains c = false := by
      have := List.head?_dropWhile_not delim.contains s
      rw [hs] at this
      simpa using this
    have hsub : (c :: cs).length ≤ s.length := by
      rw [← hs]
      exact (List.dropWhile_sublist _).length_le
    have hdrop : ((c :: cs).dropWhile fun x => !delim.contains x) =
        cs.dropWhile fun x => !delim.contains x := by
      rw [List.dropWhile_cons]
      simp only [hc, Bool.not_false, if_true]
    have hle : (cs.dropWhile fun x => !delim.contains x).length ≤ cs.length :=
      (List.dropWhile_sublist _).length_le
    rw [← h.2, hdrop, List.length_drop]
    simp only [List.length_cons] at hsub
    omega

/-- The `wcstok` loop does not depend on the fuel, once there is as much fuel as
characters. -/
theorem wcstokLines_fuel (fuel : Nat) :
    ∀ (s : List Char) (fuel2 : Nat), s.length ≤ fuel → s.length ≤ fuel2 →
      wcstokLines fuel s = wcstokLines fuel2 s := by
  induction fuel with
  | zero =>
    intro s fuel2 h _
    have hs : s = [] := List.length_eq_zero.mp (Nat.le_zero.mp h)
    subst hs
    cases fuel2 <;> simp [wcstokLines, wcstok]
  | succ n ih =>
    intro s fuel2 h h2
    cases fuel2 with
    | zero =>
      have hs : s = [] := List.length_eq_zero.mp (Nat.le_zero.mp h2)
      subst hs
      simp [wcstokLines, wcstok]
    | succ m =>
      simp only [wcstokLines]
      cases hw : wcstok ['\n'] s with
      | none => rfl
      | some r =>
        obtain ⟨tok, rest⟩ := r
        have hlt := wcstok_rest_lt ['\n'] s tok rest hw
        simp only
        rw [ih rest m (by omega) (by omega)]

/-- The characters of the line format. -/
theorem tagLines_data (tags : List String) :
    (tagLines tags).data = (tags.map fun t => t.data ++ ['\r', '\n']).flatten := by
  simp only [tagLines, String.data_join, List.map_map]
  congr 1

/-- The line format has at least as many characters as lines. -/
theorem length_le_tagLines (tags : List String) : tags.length ≤ (tagLines tags).length := by
  have h : ∀ l : List String,
      l.length ≤ ((l.map fun t => t.data ++ ['\r', '\n']).flatten).length := by
    intro l
    induction l with
    | nil => simp
    | cons t ts ih =>
      simp only [List.map_cons, List.flatten_cons, List.length_append, List.length_cons]
      omega
  simpa [String.length, tagLines_data] using h tags

/-- The inner loop of `removeTags` adds one command per file and leaves the list boxes
as they are. -/
theorem removeTagFromFiles_frame (tagger : String) (dos : DosOracle) (tagname : String)
    (files : List String) (d : Dialog) :
    (removeTagFromFiles tagger dos tagname files d).calls =
        d.calls ++ files.map (fun file =>
          wsprintf (tagger ++ " tag -\"" ++ tagname ++ "\" \"" ++ file ++ "\"")) ∧
      (removeTagFromFiles tagger dos tagname files d).ID_LIST_TAGS_SET =
        d.ID_LIST_TAGS_SET ∧
      (removeTagFromFiles tagger dos tagname files d).ID_LIST_FILES = d.ID_LIST_FILES := by
  induction files generalizing d with
  | nil => simp [removeTagFromFiles]
  | cons f fs ih => simp [removeTagFromFiles, ih, DosExec, addLog]

/-- The inner loop of `addTags` adds one command per file and leaves the list boxes as
they are. -/
theorem addTagToFiles_frame (tagger : String) (dos : DosOracle) (tagname : String)
    (files : List String) (d : Dialog) :
    (addTagToFiles tagger dos tagname files d).calls =
        d.calls ++ files.map (fun file =>
          wsprintf (tagger ++ " tag +\"" ++ tagname ++ "\" \"" ++ file ++ "\"")) ∧
      (addTagToFiles tagger dos tagname files d).ID_LIST_TAGS_MATCH =
        d.ID_LIST_TAGS_MATCH ∧
      (addTagToFiles tagger dos tagname files d).ID_LIST_FILES = d.ID_LIST_FILES := by
  induction files generalizing d with
  | nil => simp [addTagToFiles]
  | cons f fs ih => simp [addTagToFiles, ih, DosExec, addLog]

/-- The first pass of `removeTags`: the commands of each visited tag, file by file. -/
theorem removeTagsFirstPass_frame (tagger : String) (dos : DosOracle) (indexes : List Nat)
    (d : Dialog) :
    (removeTagsFirstPass tagger dos indexes d).calls =
        d.calls ++ (indexes.map (LB_GETTEXT d.ID_LIST_TAGS_SET)).flatMap (fun tag =>
          (texts d.ID_LIST_FILES).map fun file =>
            wsprintf (tagger ++ " tag -\"" ++ tag ++ "\" \"" ++ file ++ "\"")) ∧
      (removeTagsFirstPass tagger dos indexes d).ID_LIST_TAGS_SET = d.ID_LIST_TAGS_SET ∧
      (removeTagsFirstPass tagger dos indexes d).ID_LIST_FILES = d.ID_LIST_FILES := by
  induction indexes generalizing d with
  | nil => simp [removeTagsFirstPass]
  | cons i is ih =>
    simp only [removeTagsFirstPass]
    refine ⟨?_, ?_, ?_⟩
    · rw [(ih _).1, (removeTagFromFiles_frame _ _ _ _ _).1,
        (removeTagFromFiles_frame _ _ _ _ _).2.1, (removeTagFromFiles_frame _ _ _ _ _).2.2]
      simp
    · rw [(ih _).2.1, (removeTagFromFiles_frame _ _ _ _ _).2.1]
    · rw [(ih _).2.2, (removeTagFromFiles_frame _ _ _ _ _).2.2]

/-- The first pass of `addTags`: the commands of each visited tag, file by file. -/
theorem addTagsFirstPass_frame (tagger : String) (dos : DosOracle) (indexes : List Nat)
    (d : Dialog) :
    (addTagsFirstPass tagger dos indexes d).calls =
        d.calls ++ (indexes.map (LB_GETTEXT d.ID_LIST_TAGS_MATCH)).flatMap (fun tag =>
          (texts d.ID_LIST_FILES).map fun file =>
            wsprintf (tagger ++ " tag +\"" ++ tag ++ "\" \"" ++ file ++ "\"")) ∧
      (addTagsFirstPass tagger dos indexes d).ID_LIST_TAGS_MATCH = d.ID_LIST_TAGS_MATCH ∧
      (addTagsFirstPass tagger dos indexes d).ID_LIST_FILES = d.ID_LIST_FILES := by
  induction indexes generalizing d with
  | nil => simp [addTagsFirstPass]
  | cons i is ih =>
    simp only [addTagsFirstPass]
    refine ⟨?_, ?_, ?_⟩
    · rw [(ih _).1, (addTagToFiles_frame _ _ _ _ _).1,
        (addTagToFiles_frame _ _ _ _ _).2.1, (addTagToFiles_frame _ _ _ _ _).2.2]
      simp
    · rw [(ih _).2.1, (addTagToFiles_frame _ _ _ _ _).2.1]
    · rw [(ih _).2.2, (addTagToFiles_frame _ _ _ _ _).2.2]

/-- The second passes call nothing. -/
theorem secondPass_calls (n : Nat) (d : Dialog) :
    (removeTagsSecondPass n d).calls = d.calls ∧ (addTagsSecondPass n d).calls = d.calls := by
  induction n generalizing d with
  | zero => simp [removeTagsSecondPass, addTagsSecondPass]
  | succ n ih =>
    constructor
    · simp only [removeTagsSecondPass]
      rw [(ih _).1]
      split <;> rfl
    · simp only [addTagsSecondPass]
      rw [(ih _).2]
      split <;> rfl

/-- Reading the texts at the selected indexes gives the selected texts. -/
theorem selItemsFrom_texts (pre lb : ListBox) :
    (selItemsFrom pre.length lb).map (LB_GETTEXT (pre ++ lb)) = selectedTexts lb ∧
      (selItemsFrom pre.length lb).length = LB_GETSELCOUNT lb := by
  induction lb generalizing pre with
  | nil => simp [selItemsFrom, selectedTexts, LB_GETSELCOUNT]
  | cons it rest ih =>
    obtain ⟨s, sel⟩ := it
    have ih2 := ih (pre ++ [(s, sel)])
    simp only [List.length_append, List.length_singleton, List.append_assoc,
      List.singleton_append] at ih2
    cases sel with
    | false =>
      simpa [selItemsFrom, selectedTexts, LB_GETSELCOUNT] using ih2
    | true =>
      have hget : LB_GETTEXT (pre ++ (s, true) :: rest) pre.length = s := by
        have hq : (pre ++ (s, true) :: rest).get? pre.length = some (s, true) := by
          rw [List.get?_eq_getElem?, List.getElem?_append_right (Nat.le_refl _)]
          simp
        simp only [LB_GETTEXT, hq]
      simp only [selItemsFrom, if_true, List.map_cons, hget, List.length_cons]
      simp only [selectedTexts, LB_GETSELCOUNT] at ih2 ⊢
      simp [ih2.1, ih2.2]

/-- `LB_GETSELITEMS` with room for `LB_GETSELCOUNT` indexes, read with `LB_GETTEXT`. -/
theorem LB_GETSELITEMS_texts (lb : ListBox) :
    (LB_GETSELITEMS lb (LB_GETSELCOUNT lb)).map (LB_GETTEXT lb) = selectedTexts lb := by
  have h := selItemsFrom_texts [] lb
  simp only [List.length_nil, List.nil_append] at h
  rw [LB_GETSELITEMS, ← h.2, List.take_length, h.1]

/-- After a tag has been created in an empty `ID_LIST_TAGS_MATCH`, the item added and
selected there is counted by `LB_GETSELCOUNT`. -/
theorem created_tag_selected (lb : ListBox) (tagname : String) (h : LB_GETCOUNT lb = 0) :
    LB_GETSELCOUNT
      (LB_SELITEMRANGE (LB_ADDSTRING lb tagname).1 (LB_ADDSTRING lb tagname).2
        (LB_ADDSTRING lb tagname).2) ≠ 0 := by
  have hnil : lb = [] := List.length_eq_zero.mp h
  subst hnil
  simp [LB_ADDSTRING, LB_SELITEMRANGE, LB_GETSELCOUNT, List.enum, List.enumFrom]

/-- Two levels of `addTags` are enough: a deeper bound gives the same result. -/
theorem addTagsAux_depth (tagger : String) (dos : DosOracle) (n : Nat) (d : Dialog) :
    addTagsAux tagger dos (n + 2) d = addTagsAux tagger dos 2 d := by
  by_cases hsel : LB_GETSELCOUNT d.ID_LIST_TAGS_MATCH = 0
  · by_cases hlen : d.ID_TAGNAME.length = 0
    · simp [addTagsAux, hsel, hlen]
    · by_cases hcount : LB_GETCOUNT d.ID_LIST_TAGS_MATCH = 0
      · by_cases hfind : LB_FINDSTRING d.ID_LIST_TAGS_SET 0 d.ID_TAGNAME = none
        · have hnew := created_tag_selected d.ID_LIST_TAGS_MATCH d.ID_TAGNAME hcount
          rw [show n + 2 = (n + 1) + 1 from rfl, show (2 : Nat) = 1 + 1 from rfl]
          rw [addTagsAux, addTagsAux]
          simp only [hsel, hlen, hcount, hfind, if_true, if_false, DosExec]
          rw [addTagsAux, addTagsAux]
          simp only [hnew, if_false]
        · simp [addTagsAux, hsel, hlen, hcount, hfind]
      · simp [addTagsAux, hsel, hlen, hcount]
  · simp [addTagsAux, hsel]

/-! ## The tag lists -/

/-- C13: after `updateTagName` the texts of `ID_LIST_TAGS_MATCH` are the texts of
`ID_LIST_TAGS_ALL` that begin with the pattern typed in `ID_TAGNAME`, in the order and
with the multiplicity they have there (all of them when the pattern is empty),
whatever `ID_LIST_TAGS_MATCH` held before; `ID_LIST_TAGS_ALL` is unchanged. -/
theorem updateTagName_filters_prefix (d : Dialog) :
    texts (updateTagName d).ID_LIST_TAGS_MATCH =
        (texts d.ID_LIST_TAGS_ALL).filter (fun t => d.ID_TAGNAME.data.isPrefixOf t.data) ∧
      (∀ t, (texts (updateTagName d).ID_LIST_TAGS_MATCH).count t =
        if d.ID_TAGNAME.data <+: t.data then (texts d.ID_LIST_TAGS_ALL).count t else 0) ∧
      (d.ID_TAGNAME = "" →
        texts (updateTagName d).ID_LIST_TAGS_MATCH = texts d.ID_LIST_TAGS_ALL) ∧
      (updateTagName d).ID_LIST_TAGS_ALL = d.ID_LIST_TAGS_ALL := by
  have h : texts (updateTagName d).ID_LIST_TAGS_MATCH =
      (texts d.ID_LIST_TAGS_ALL).filter (fun t => d.ID_TAGNAME.data.isPrefixOf t.data) := by
    simp only [updateTagName]
    rw [texts_updateTagNameLoop]
    simp [texts]
  refine ⟨h, ?_, ?_, rfl⟩
  · intro t
    rw [h]
    by_cases hp : d.ID_TAGNAME.data <+: t.data
    · have hb : (fun t : String => d.ID_TAGNAME.data.isPrefixOf t.data) t = true := by
        simpa using hp
      rw [List.count_filter (p := fun t : String => d.ID_TAGNAME.data.isPrefixOf t.data)
        (a := t) hb]
      simp [hp]
    · simp only [hp, if_false]
      apply List.count_eq_zero.mpr
      intro hmem
      have := (List.mem_filter.mp hmem).2
      exact hp (by simpa using this)
  · intro hempty
    rw [h, hempty]
    simp

/-- C17: for tag names without line feed, when the reply is the line format of these
tags and is not the NoTags reply, the lines the `wcstok` loop hands to its body are
exactly these tag names, in order; and from the NoTags reply no tag is extracted. -/
theorem extractTags_tagLines (tags : List String)
    (hlf : ∀ t ∈ tags, '\n' ∉ t.data) (hne : tagLines tags ≠ NoTags) :
    extractTags (tagLines tags) = tags ∧ extractTags NoTags = [] := by
  refine ⟨?_, by simp [extractTags]⟩
  have h := wcstokLines_tagLines (tags.map String.data)
    (by
      intro t ht
      obtain ⟨u, hu, rfl⟩ := List.mem_map.mp ht
      exact hlf u hu)
    (tagLines tags).length (by simpa using length_le_tagLines tags)
  simp only [List.map_map] at h
  have hd : (tagLines tags).data =
      (List.map ((fun t => t ++ ['\r', '\n']) ∘ String.data) tags).flatten := by
    rw [tagLines_data]
    rfl
  simp only [extractTags, hne, ne_eq, not_false_eq_true, if_true, parseLines]
  rw [hd, h, List.map_map]
  have hid : (String.mk ∘ String.data) = id := by
    funext u
    rfl
  rw [hid, List.map_id]

/-- Witness of C17: the reply listing the tags `red` and `blue`. -/
theorem extractTags_tagLines_witness :
    extractTags (tagLines ["red", "blue"]) = ["red", "blue"] ∧ extractTags NoTags = [] :=
  extractTags_tagLines ["red", "blue"] (by decide) (by decide)

/-- C14 fails on the code: `red` is set on `C:\a.txt`, the file `C:\b.txt` is added and
its query lists the single tag `redwood`; `red` is not among the tags of the new file,
yet it stays in `ID_LIST_TAGS_SET`. -/
theorem updateFilesList_keeps_tag_not_on_new_file :
    extractTags "redwood\r\n" = ["redwood"] ∧
      texts (updateFilesList "tagger.exe" (fun _ _ => some "redwood\r\n") "C:\\b.txt"
        dialogRedSet).ID_LIST_FILES = ["C:\\a.txt", "C:\\b.txt"] ∧
      texts (updateFilesList "tagger.exe" (fun _ _ => some "redwood\r\n") "C:\\b.txt"
        dialogRedSet).ID_LIST_TAGS_SET = ["red"] := by
  decide

/-- C15 fails on the code: with the pattern `b` typed, `ID_LIST_TAGS_MATCH` shows `beta`
only; `beta` is selected and added.  It goes to `ID_LIST_TAGS_SET` and leaves
`ID_LIST_TAGS_MATCH`, but the item deleted from `ID_LIST_TAGS_ALL` is the unselected
`alpha`, and `beta` stays there. -/
theorem addTags_deletes_other_tag_from_ALL :
    texts dialogFilteredSelection.ID_LIST_TAGS_ALL = ["alpha", "beta"] ∧
      selectedTexts dialogFilteredSelection.ID_LIST_TAGS_MATCH = ["beta"] ∧
      texts (addTags "tagger.exe" (fun _ _ => some "")
        dialogFilteredSelection).ID_LIST_TAGS_SET = ["beta"] ∧
      texts (addTags "tagger.exe" (fun _ _ => some "")
        dialogFilteredSelection).ID_LIST_TAGS_MATCH = [] ∧
      texts (addTags "tagger.exe" (fun _ _ => some "")
        dialogFilteredSelection).ID_LIST_TAGS_ALL = ["beta"] := by
  decide

/-- C16 fails on the code: the files list holds `C:\a.txt.bak` only, no entry is equal
to the received `C:\a.txt`, yet `updateFilesList` returns at once: the file is not
added, no list changes and nothing is called. -/
theorem updateFilesList_skips_file_not_in_list :
    "C:\\a.txt" ∉ texts dialogBackupFile.ID_LIST_FILES ∧
      updateFilesList "tagger.exe" (fun _ _ => some NoTags) "C:\\a.txt" dialogBackupFile =
        dialogBackupFile := by
  decide

/-- The commands of `removeTags` and `addTags`: `removeTags` passes to `DosExec` one
command for each selected tag of `ID_LIST_TAGS_SET` and each file of `ID_LIST_FILES`,
tag by tag in index order and, for one tag, file by file in index order, and nothing
else; `addTags`, when at least one item of `ID_LIST_TAGS_MATCH` is selected, does the
same for the selected tags of `ID_LIST_TAGS_MATCH`.  Each command is the text that
`wsprintf` writes for `<tagger> tag -"tag" "file"`, respectively `tag +`, and their
number is the number of selected tags times the number of files. -/
theorem tag_commands_as_written (tagger : String) (dos : DosOracle) (d : Dialog) :
    ((removeTags tagger dos d).calls =
        d.calls ++ (selectedTexts d.ID_LIST_TAGS_SET).flatMap (fun tag =>
          (texts d.ID_LIST_FILES).map fun file =>
            wsprintf (tagger ++ " tag -\"" ++ tag ++ "\" \"" ++ file ++ "\"")) ∧
      (removeTags tagger dos d).calls.length =
        d.calls.length + LB_GETSELCOUNT d.ID_LIST_TAGS_SET * LB_GETCOUNT d.ID_LIST_FILES) ∧
    (LB_GETSELCOUNT d.ID_LIST_TAGS_MATCH ≠ 0 →
      (addTags tagger dos d).calls =
        d.calls ++ (selectedTexts d.ID_LIST_TAGS_MATCH).flatMap (fun tag =>
          (texts d.ID_LIST_FILES).map fun file =>
            wsprintf (tagger ++ " tag +\"" ++ tag ++ "\" \"" ++ file ++ "\"")) ∧
      (addTags tagger dos d).calls.length =
        d.calls.length +
          LB_GETSELCOUNT d.ID_LIST_TAGS_MATCH * LB_GETCOUNT d.ID_LIST_FILES) := by
  have hlen : ∀ (l : List String) (files : List String) (f : String → String → String),
      (l.flatMap fun tag => files.map fun file => f tag file).length =
        l.length * files.length := by
    intro l files f
    induction l with
    | nil => simp
    | cons a l ih => simp [List.flatMap_cons, ih, Nat.succ_mul, Nat.add_comm]
  have hr : (removeTags tagger dos d).calls =
      d.calls ++ (selectedTexts d.ID_LIST_TAGS_SET).flatMap (fun tag =>
        (texts d.ID_LIST_FILES).map fun file =>
          wsprintf (tagger ++ " tag -\"" ++ tag ++ "\" \"" ++ file ++ "\"")) := by
    simp only [removeTags]
    rw [(secondPass_calls _ _).1, (removeTagsFirstPass_frame _ _ _ _).1,
      LB_GETSELITEMS_texts]
  have ha : LB_GETSELCOUNT d.ID_LIST_TAGS_MATCH ≠ 0 →
      (addTags tagger dos d).calls =
        d.calls ++ (selectedTexts d.ID_LIST_TAGS_MATCH).flatMap (fun tag =>
          (texts d.ID_LIST_FILES).map fun file =>
            wsprintf (tagger ++ " tag +\"" ++ tag ++ "\" \"" ++ file ++ "\"")) := by
    intro hsel
    simp only [addTags, addTagsAux, hsel, if_false, addTagsSelected]
    rw [(secondPass_calls _ _).2, (addTagsFirstPass_frame _ _ _ _).1,
      LB_GETSELITEMS_texts]
  refine ⟨⟨hr, ?_⟩, fun hsel => ⟨ha hsel, ?_⟩⟩
  · rw [hr, List.length_append,
      hlen _ _ (fun tag file => wsprintf (tagger ++ " tag -\"" ++ tag ++ "\" \"" ++ file ++ "\""))]
    simp [selectedTexts, LB_GETSELCOUNT, LB_GETCOUNT, texts]
  · rw [ha hsel, List.length_append,
      hlen _ _ (fun tag file => wsprintf (tagger ++ " tag +\"" ++ tag ++ "\" \"" ++ file ++ "\""))]
    simp [selectedTexts, LB_GETSELCOUNT, LB_GETCOUNT, texts]

set_option maxRecDepth 100000 in
/-- C18 fails on the code: the dialog is on one file whose name has 1003 characters, the
tag `red` is selected in `ID_LIST_TAGS_SET` and `green` in `ID_LIST_TAGS_MATCH`.  The
command line `<tagger> tag -"red" "file"` has 1027 characters; the buffer is allocated
for all of them, but `wsprintf` writes 1024, and the one command `removeTags` passes to
`DosExec` names 1001 characters of the file and has no closing quote.  The same
happens to the command of `addTags`. -/
theorem tag_commands_long_file_cut :
    (removeTags "tagger.exe" (fun _ _ => some "") dialogLongFile).calls =
        ["tagger.exe tag -\"red\" \"C:\\" ++ String.mk (List.replicate 998 'a')] ∧
      (addTags "tagger.exe" (fun _ _ => some "") dialogLongFile).calls =
        ["tagger.exe tag +\"green\" \"C:\\" ++ String.mk (List.replicate 996 'a')] ∧
      longFile.length = 1003 ∧
      ("tagger.exe tag -\"red\" \"" ++ longFile ++ "\"").length = 1027 ∧
      "tagger.exe tag -\"red\" \"C:\\" ++ String.mk (List.replicate 998 'a') ≠
        "tagger.exe tag -\"red\" \"" ++ longFile ++ "\"" ∧
      "tagger.exe tag +\"green\" \"C:\\" ++ String.mk (List.replicate 996 'a') ≠
        "tagger.exe tag +\"green\" \"" ++ longFile ++ "\"" := by
  decide

/-- C19 fails on the code: the second instance is started on the file
`C:\50%%off.txt`; the file name is used as the format of `wsprintf`, and the text
written to the shared memory before the broadcast is `C:\50%off.txt`, one character
short. -/
theorem WinMainSecondInstance_percent_not_copied :
    WinMainSecondInstance ["tftag.exe", "C:\\50%%off.txt"] =
        (Written.text "C:\\50%off.txt", true) ∧
      "C:\\50%off.txt" ≠ "C:\\50%%off.txt" := by
  decide

end Tftag
